import Mathlib

/-!
# scripts/proxy.js : a request-forwarding gateway

A shallow embedding of the Worker in `scripts/proxy.js` and the properties
of its routing (`fetch`) and relay (`proxyRequest`) logic.

Modelling conventions.

* JavaScript strings are Lean `String`s; the string primitives used by the
  source (`startsWith`, `includes`, `slice(1)`, `toUpperCase`, `+`) are
  defined on the underlying character lists.
* A `Headers` object is a list of (name, value) pairs with the WHATWG
  `get`/`set` semantics (names compared ASCII-case-insensitively).
  `Headers` objects are mutable in JavaScript, so they live in a `Heap`
  and are addressed by reference; `new Headers(x)` allocates a fresh copy.
* Everything the hosting runtime decides (the clock, the URL parser, the
  `Request` constructor's validation, the network, the wording of the
  `Response` constructor's errors) is a field of `Runtime`; what the Fetch
  standard fixes (method normalisation, the status and body checks of the
  `Response` constructor) is defined here.
  Exceptions are modelled by `Except String`, the string being `e.message`.
* The handler returns an `Outcome`: the response, the log of outbound
  calls that were issued, and the final heap.
-/

namespace Proxy

/-! ## JavaScript string primitives -/

/-- JavaScript `s.startsWith(p)`. -/
def startsWith (s p : String) : Bool := p.data.isPrefixOf s.data

/-- JavaScript `s.includes(t)`: `t` occurs in `s` as a contiguous block. -/
def includes (s t : String) : Bool := s.data.tails.any (fun u => t.data.isPrefixOf u)

/-- JavaScript `s.slice(1)`: `s` without its first character.  (The source
applies it to `url.pathname`, whose first character is always `/`.) -/
def slice1 (s : String) : String := ⟨s.data.drop 1⟩

/-- JavaScript `s.toUpperCase()` on the ASCII range.  The source only compares
the result with `GET` and `HEAD`; no non-ASCII character upper-cases to one of
the letters of these two words, so the comparison agrees with the full Unicode
mapping. -/
def toUpperCase (s : String) : String := ⟨s.data.map Char.toUpper⟩

/-- ASCII lower-casing, used to compare header names. -/
def toLowerCase (s : String) : String := ⟨s.data.map Char.toLower⟩

/-! ## Headers objects -/

/-- The header list of a `Headers` object. -/
structure Headers where
  entries : List (String × String)
deriving DecidableEq, Repr

/-- Header names are compared byte-case-insensitively. -/
def sameName (a b : String) : Bool := toLowerCase a == toLowerCase b

/-- Worker of `Headers.set`: overwrite the first header called `name` and
drop the later ones; append when there is none. -/
def setEntries (name value : String) : List (String × String) → List (String × String)
  | [] => [(name, value)]
  | e :: es =>
    if sameName e.1 name then
      (e.1, value) :: es.filter (fun x => !sameName x.1 name)
    else
      e :: setEntries name value es

/-- JavaScript `headers.set(name, value)`. -/
def Headers.set (h : Headers) (name value : String) : Headers :=
  ⟨setEntries name value h.entries⟩

/-- JavaScript `headers.get(name)`: the values of all headers called `name`,
joined by a comma and a space; `none` (null) when there is none. -/
def Headers.get (h : Headers) (name : String) : Option String :=
  match (h.entries.filter (fun e => sameName e.1 name)).map Prod.snd with
  | [] => none
  | v :: vs => some (", ".intercalate (v :: vs))

/-! ## The heap of Headers objects -/

/-- The store of mutable `Headers` objects; a reference is an index. -/
structure Heap where
  objs : List Headers
deriving DecidableEq, Repr

/-- Dereference. -/
def Heap.read (σ : Heap) (r : Nat) : Headers := σ.objs.getD r ⟨[]⟩

/-- JavaScript `new Headers(init)`: a fresh object holding a copy of `init`. -/
def Heap.alloc (σ : Heap) (init : Headers) : Heap × Nat :=
  (⟨σ.objs ++ [init]⟩, σ.objs.length)

/-- JavaScript `ref.set(name, value)`: mutate the object behind `ref` in place. -/
def Heap.setHeader (σ : Heap) (ref : Nat) (name value : String) : Heap :=
  ⟨σ.objs.set ref ((σ.read ref).set name value)⟩

/-! ## Requests, responses, runtime -/

/-- The fields of `new URL(request.url)` the handler reads.  For an inbound
http(s) request `pathname` starts with `/` and `search` is empty or starts
with `?`. -/
structure URL where
  pathname : String
  search : String
deriving DecidableEq, Repr

/-- The inbound `Request`. `headers` is a reference to its `Headers` object;
`body` is `none` for a null body.  The method of a `Request` object is always
normalised (see `normalizeMethod`): `GET`, never `get`. -/
structure Request where
  method : String
  url : URL
  headers : Nat
  body : Option String
deriving DecidableEq, Repr

/-- The outbound request `new Request(targetUrl, requestInit)`.  The
constructor copies the header list of `requestInit.headers`; `body` is `none`
when `requestInit` has no `body` property or a null one. -/
structure OutRequest where
  url : String
  method : String
  headers : Headers
  redirect : String
  body : Option String
deriving DecidableEq, Repr

/-- A `Response`: status, header list, body (`none` for null). -/
structure Response where
  status : Nat
  headers : Headers
  body : Option String
deriving DecidableEq, Repr

/-- What the hosting runtime supplies. -/
structure Runtime where
  /-- The value of `Date.now()`. -/
  now : Nat
  /-- The value of `new URL(s).host`, or the message of the error thrown. -/
  urlHost : String → Except String String
  /-- The message of the error `new Request(url, init)` throws, if it throws. -/
  requestError : OutRequest → Option String
  /-- The value of `await fetch(newRequest)`, or the message of the rejection. -/
  upstream : OutRequest → Except String Response
  /-- The message of the error `new Response(body, { status })` throws when it
  rejects the status or the body (see `responseRejects`). -/
  responseMessage : Nat → Option String → String

/-- What one invocation of the handler does. -/
structure Outcome where
  response : Response
  calls : List OutRequest
  heap : Heap
deriving DecidableEq, Repr

/-! ## The Response constructors used by the source -/

/-- The header a `Response` built from a string body gets from the constructor. -/
def textPlain : Headers := ⟨[("content-type", "text/plain;charset=UTF-8")]⟩

/-- JavaScript `new Response(text, { status })`. -/
def textResponse (text : String) (status : Nat) : Response :=
  { status := status, headers := textPlain, body := some text }

/-- JavaScript `Response.redirect(url, status)`. -/
def redirectResponse (url : String) (status : Nat) : Response :=
  { status := status, headers := ⟨[("Location", url)]⟩, body := none }

/-- The reply to `OPTIONS` (source lines 4-10): `new Response(null, { headers })`
has the default status 200. -/
def preflightResponse : Response :=
  { status := 200
    headers := ⟨[("Access-Control-Allow-Origin", "*"),
                 ("Access-Control-Allow-Methods", "GET, POST, HEAD, OPTIONS"),
                 ("Access-Control-Allow-Headers", "*")]⟩
    body := none }

/-! ## Configuration (source lines 16-35) -/

def GITHUB_USER : String := "0Sycamores"
def GITHUB_REPO : String := "nixos-config"
def BRANCH : String := "main"

def REPO_HOME_URL : String := "https://github.com/" ++ GITHUB_USER ++ "/" ++ GITHUB_REPO

def RAW_BASE_URL : String :=
  "https://raw.githubusercontent.com/" ++ GITHUB_USER ++ "/" ++ GITHUB_REPO ++ "/" ++ BRANCH

/-- The own properties of the object literal `ROUTES`.  (Property names
inherited from `Object.prototype` do not start with `/`, so no pathname
reaches them.) -/
def ROUTES : List (String × String) := [("/install", "scripts/install.sh")]

def ALLOWED_PREFIXES : List String :=
  [ "https://github.com/" ++ GITHUB_USER ++ "/" ++ GITHUB_REPO,
    "https://raw.githubusercontent.com/" ++ GITHUB_USER ++ "/" ++ GITHUB_REPO ]

/-- JavaScript truthiness of `ROUTES[key]`: defined and not the empty string. -/
def truthy : Option String → Bool
  | some s => s != ""
  | none => false

/-! ## proxyRequest (source lines 73-119) -/

/-- The method normalisation of the `Request` constructor: a method that
matches `DELETE`, `GET`, `HEAD`, `OPTIONS`, `POST` or `PUT` up to case is
upper-cased, any other method is kept as it is. -/
def normalizeMethod (method : String) : String :=
  if ["DELETE", "GET", "HEAD", "OPTIONS", "POST", "PUT"].contains (toUpperCase method) then
    toUpperCase method
  else method

/-- The checks of the `Response` constructor: `new Response(body, { status })`
throws a RangeError when the status is outside 200..599 and a TypeError when
the body is not null although the status is a null-body status (101, 103, 204,
205, 304). -/
def responseRejects (status : Nat) (body : Option String) : Bool :=
  status < 200 || 599 < status ||
    (body.isSome && [101, 103, 204, 205, 304].contains status)

def USER_AGENT : String :=
  "Mozilla/5.0 (Windows NT 10.0; Win64; x64) AppleWebKit/537.36 (KHTML, like Gecko) Chrome/120.0.0.0 Safari/537.36"

/-- The `catch` branch: `new Response('Proxy Error: ' + e.message, { status: 500 })`. -/
def proxyError (message : String) : Response :=
  textResponse ("Proxy Error: " ++ message) 500

/-- Source lines 79-85: the Referer / User-Agent disguise applied to the
object behind `newHeaders`. -/
def disguise (σ : Heap) (newHeaders : Nat) (targetUrl : String) : Heap :=
  if includes targetUrl "github" then
    (σ.setHeader newHeaders "Referer" "https://github.com/").setHeader newHeaders
      "User-Agent" USER_AGENT
  else σ

/-- Source lines 87-98: `new Request(targetUrl, requestInit)`, where the body
is attached only when the upper-cased method is neither GET nor HEAD.  The
constructor normalises the method it is given. -/
def newRequest (σ : Heap) (newHeaders : Nat) (targetUrl : String) (baseRequest : Request) :
    OutRequest :=
  { url := targetUrl
    method := normalizeMethod baseRequest.method
    headers := σ.read newHeaders
    redirect := "follow"
    body := if ["GET", "HEAD"].contains (toUpperCase baseRequest.method) then none
            else baseRequest.body }

/-- Source lines 103-110: the header list of the returned response. -/
def newResponseHeaders (upstreamHeaders : Headers) : Headers :=
  ((((upstreamHeaders.set "Access-Control-Allow-Origin" "*").set
      "Access-Control-Allow-Methods" "GET, POST, HEAD, OPTIONS").set
      "Cache-Control" "no-store, no-cache, must-revalidate, proxy-revalidate").set
      "Pragma" "no-cache").set "Expires" "0"

/-- The function `proxyRequest(targetUrl, baseRequest)`. -/
def proxyRequest (rt : Runtime) (σ : Heap) (targetUrl : String) (baseRequest : Request) :
    Outcome :=
  let a := σ.alloc (σ.read baseRequest.headers)
  let newHeaders := a.2
  match rt.urlHost targetUrl with
  | .error m => ⟨proxyError m, [], a.1⟩
  | .ok host =>
    let σ₁ := disguise (a.1.setHeader newHeaders "Host" host) newHeaders targetUrl
    let req := newRequest σ₁ newHeaders targetUrl baseRequest
    match rt.requestError req with
    | some m => ⟨proxyError m, [], σ₁⟩
    | none =>
      match rt.upstream req with
      | .error m => ⟨proxyError m, [req], σ₁⟩
      | .ok response =>
        if responseRejects response.status response.body then
          ⟨proxyError (rt.responseMessage response.status response.body), [req], σ₁⟩
        else
          ⟨{ status := response.status
             headers := newResponseHeaders response.headers
             body := response.body }, [req], σ₁⟩

/-! ## fetch (source lines 2-65) -/

/-- The handler `fetch(request, env, ctx)`. -/
def fetch (rt : Runtime) (σ : Heap) (request : Request) : Outcome :=
  if request.method = "OPTIONS" then
    ⟨preflightResponse, [], σ⟩
  else
    let url := request.url
    let scriptName := ROUTES.lookup url.pathname
    if truthy scriptName then
      let targetUrl := RAW_BASE_URL ++ "/" ++ scriptName.getD "" ++ "?t=" ++ toString rt.now
      proxyRequest rt σ targetUrl request
    else
      let rawPath := slice1 url.pathname ++ url.search
      if startsWith rawPath "http://" || startsWith rawPath "https://" then
        let isAllowed := ALLOWED_PREFIXES.any (fun p => startsWith rawPath p)
        if isAllowed then
          proxyRequest rt σ rawPath request
        else
          ⟨textResponse "Forbidden: Access to this repository is not allowed via this proxy." 403,
            [], σ⟩
      else
        ⟨redirectResponse REPO_HOME_URL 302, [], σ⟩

/-- The heap after source lines 75-85 when `new URL(targetUrl).host` evaluated
to `host`: `newHeaders` is object number `σ.objs.length`. -/
def rewritten (σ : Heap) (targetUrl host : String) (baseRequest : Request) : Heap :=
  let a := σ.alloc (σ.read baseRequest.headers)
  disguise (a.1.setHeader a.2 "Host" host) a.2 targetUrl

/-- The value of `newRequest` at source line 98 when `new URL(targetUrl).host`
evaluated to `host`: the request `proxyRequest` hands to the network. -/
def outbound (σ : Heap) (targetUrl host : String) (baseRequest : Request) : OutRequest :=
  newRequest (rewritten σ targetUrl host baseRequest) σ.objs.length targetUrl baseRequest

/-- The response `proxyRequest` builds from the upstream response (source lines
112-115) when the `Response` constructor accepts its status and body. -/
def relayed (upstream : Response) : Response :=
  { status := upstream.status
    headers := newResponseHeaders upstream.headers
    body := upstream.body }

/-! ## Test doubles and auxiliary notions used to state the properties -/

/-- A stand-in for `new URL(s).host`, right for lower-case http(s) URLs without
credentials, port or escapes: the characters between `://` and the next `/`,
`?` or `#`. -/
def hostOf (s : String) : Except String String :=
  let rest : Option (List Char) :=
    if startsWith s "https://" then some (s.data.drop 8)
    else if startsWith s "http://" then some (s.data.drop 7)
    else none
  match rest with
  | none => .error "Invalid URL"
  | some r =>
    match r.takeWhile (fun c => c != '/' && c != '?' && c != '#') with
    | [] => .error "Invalid URL"
    | c :: cs => .ok ⟨c :: cs⟩

/-- A runtime whose clock reads `now`, whose `Request` constructor accepts
everything and whose network answers every call with `reply`. -/
def stubRuntime (now : Nat) (reply : Except String Response) : Runtime :=
  { now := now
    urlHost := hostOf
    requestError := fun _ => none
    upstream := fun _ => reply
    responseMessage := fun _ _ => "Invalid response status" }

/-- The pieces of a string between its `/` characters. -/
def segments (s : String) : List String :=
  (s.data.splitOn '/').map String.mk

/-- A heap holding one `Headers` object, the inbound request's. -/
def sampleHeap : Heap :=
  ⟨[⟨[("Referer", "https://a.example/"), ("Accept", "*/*"), ("Cache-Control", "max-age=60")]⟩]⟩

/-- An inbound request with a body whose headers are object 0 of the heap. -/
def sampleRequest (method pathname search : String) : Request :=
  { method := method, url := ⟨pathname, search⟩, headers := 0, body := some "payload" }

/-- An upstream response carrying caching and CORS headers of its own. -/
def sampleUpstream (status : Nat) : Response :=
  { status := status
    headers := ⟨[("Content-Type", "text/x-sh"), ("cache-control", "max-age=300"),
                 ("Expires", "Thu, 01 Jan 2038 00:00:00 GMT"),
                 ("access-control-allow-origin", "https://github.com")]⟩
    body := some "#!/bin/sh" }

/-! ## The routing decision of fetch, read off its control flow -/

/-- The five ways `fetch` can go. -/
inductive Branch where
  | preflight
  | namedRoute
  | passthrough
  | forbidden
  | redirect
deriving DecidableEq, Repr

/-- The branch `fetch` takes: the tests of source lines 3, 41, 52 and 56, in
that order. -/
def branch (request : Request) : Branch :=
  if request.method = "OPTIONS" then .preflight
  else if truthy (ROUTES.lookup request.url.pathname) then .namedRoute
  else
    let rawPath := slice1 request.url.pathname ++ request.url.search
    if startsWith rawPath "http://" || startsWith rawPath "https://" then
      if ALLOWED_PREFIXES.any (fun p => startsWith rawPath p) then .passthrough
      else .forbidden
    else .redirect

/-- The target URL `fetch` hands to `proxyRequest` in its two forwarding
branches (source lines 44 and 57), `now` being the value of `Date.now()`. -/
def forwardTarget (now : Nat) (request : Request) : String :=
  if truthy (ROUTES.lookup request.url.pathname) then
    RAW_BASE_URL ++ "/" ++ (ROUTES.lookup request.url.pathname).getD "" ++ "?t=" ++ toString now
  else
    slice1 request.url.pathname ++ request.url.search

/-- A runtime that parses every target, builds every request and records the
call; the network then rejects. -/
def probeRuntime (now : Nat) : Runtime :=
  { now := now
    urlHost := fun _ => .ok "upstream.invalid"
    requestError := fun _ => none
    upstream := fun _ => .error "unreachable"
    responseMessage := fun _ _ => "Invalid response status" }

/-- Upstream confinement of a target URL: it starts with `https://github.com/`
or `https://raw.githubusercontent.com/`, so that its scheme is https and its
host, which ends at that slash, is exactly one of the two. -/
def confined (url : String) : Prop :=
  (startsWith url "https://github.com/" = true ∧ hostOf url = .ok "github.com") ∨
  (startsWith url "https://raw.githubusercontent.com/" = true ∧
    hostOf url = .ok "raw.githubusercontent.com")

/-- The number a list of decimal digits denotes, most significant digit
first: the inverse of the decimal rendering of a timestamp. -/
def decimalValue (cs : List Char) : Nat :=
  cs.foldl (fun acc c => acc * 10 + (c.toNat - 48)) 0

/-! ## Lemmas on header lists -/

theorem sameName_iff (a b : String) : sameName a b = true ↔ toLowerCase a = toLowerCase b := by
  simp [sameName]

theorem sameName_comm (a b : String) : sameName a b = sameName b a := by
  rw [Bool.eq_iff_iff, sameName_iff, sameName_iff]; exact eq_comm

theorem sameName_congr {m n : String} (h : sameName m n = true) (x : String) :
    sameName x m = sameName x n := by
  rw [sameName_iff] at h
  rw [Bool.eq_iff_iff, sameName_iff, sameName_iff, h]

theorem filter_name_drop {m n : String} (h : sameName m n = true) (es : List (String × String)) :
    (es.filter (fun x => !sameName x.1 n)).filter (fun e => sameName e.1 m) = [] := by
  rw [List.filter_eq_nil_iff]
  intro x hx
  rw [List.mem_filter] at hx
  rw [sameName_congr h]
  simpa using hx.2

theorem filter_name_keep {m n : String} (h : sameName m n = false) (es : List (String × String)) :
    (es.filter (fun x => !sameName x.1 n)).filter (fun e => sameName e.1 m) =
      es.filter (fun e => sameName e.1 m) := by
  rw [List.filter_filter]
  apply List.filter_congr
  intro x _
  cases hxm : sameName x.1 m with
  | false => simp
  | true =>
    cases hxn : sameName x.1 n with
    | false => simp
    | true =>
      have h1 : sameName m x.1 = true := by rw [sameName_comm]; exact hxm
      have h2 : sameName m n = true := by
        rw [sameName_iff] at h1 hxn ⊢; exact h1.trans hxn
      rw [h] at h2; exact absurd h2 (by decide)

theorem filter_setEntries (n v m : String) (l : List (String × String)) :
    ((setEntries n v l).filter (fun e => sameName e.1 m)).map Prod.snd =
      if sameName m n then [v] else (l.filter (fun e => sameName e.1 m)).map Prod.snd := by
  induction l with
  | nil =>
    simp only [setEntries, List.filter_cons, List.filter_nil, sameName_comm n m]
    cases sameName m n <;> simp
  | cons e es ih =>
    simp only [setEntries]
    cases hen : sameName e.1 n with
    | true =>
      simp only [if_true, List.filter_cons]
      cases hmn : sameName m n with
      | true =>
        have hem : sameName e.1 m = true := by rw [sameName_congr hmn]; exact hen
        simp [hem, filter_name_drop hmn]
      | false =>
        have hem : sameName e.1 m = false := by
          cases hem : sameName e.1 m with
          | false => rfl
          | true =>
            have : sameName m n = true := by
              rw [sameName_iff] at hem hen ⊢; exact hem.symm.trans hen
            rw [hmn] at this; exact absurd this (by decide)
        simp [hem, filter_name_keep hmn]
    | false =>
      simp only [List.filter_cons]
      cases hmn : sameName m n with
      | true =>
        have hem : sameName e.1 m = false := by rw [sameName_congr hmn]; exact hen
        simp only [hmn, if_true] at ih
        simp [hem, ih]
      | false =>
        simp only [hmn, Bool.false_eq_true, if_false] at ih
        cases hem : sameName e.1 m <;> simp [List.filter_cons, hem, ih]

/-- Reading a header after `set`: the name just set has the new value, every
other name reads as before. -/
theorem Headers.get_set (h : Headers) (n v m : String) :
    (h.set n v).get m = if sameName m n then some v else h.get m := by
  unfold Headers.get Headers.set
  simp only [filter_setEntries]
  cases hmn : sameName m n with
  | true => simp [String.intercalate, String.intercalate.go]
  | false => simp

/-! ## Lemmas on the heap -/

theorem Heap.read_alloc_new (σ : Heap) (h : Headers) :
    (σ.alloc h).1.read (σ.alloc h).2 = h := by
  simp [Heap.read, Heap.alloc, List.getD_eq_getElem?_getD]

theorem Heap.read_alloc_old (σ : Heap) (h : Headers) {r : Nat} (hr : r < σ.objs.length) :
    (σ.alloc h).1.read r = σ.read r := by
  simp [Heap.read, Heap.alloc, List.getD_eq_getElem?_getD, List.getElem?_append_left hr]

theorem Heap.read_setHeader_same (σ : Heap) {ref : Nat} (hr : ref < σ.objs.length)
    (n v : String) : (σ.setHeader ref n v).read ref = (σ.read ref).set n v := by
  simp [Heap.read, Heap.setHeader, List.getD_eq_getElem?_getD, hr]

theorem Heap.read_setHeader_other (σ : Heap) {ref r : Nat} (hne : ref ≠ r)
    (n v : String) : (σ.setHeader ref n v).read r = σ.read r := by
  simp [Heap.read, Heap.setHeader, List.getD_eq_getElem?_getD, List.getElem?_set_ne hne]

theorem Heap.length_setHeader (σ : Heap) (ref : Nat) (n v : String) :
    (σ.setHeader ref n v).objs.length = σ.objs.length := by
  simp [Heap.setHeader]

/-! ## Lemmas on strings -/

theorem isPrefixOf_append_self (p r : List Char) : p.isPrefixOf (p ++ r) = true := by
  induction p with
  | nil => simp [List.isPrefixOf]
  | cons c cs ih => simp [List.isPrefixOf, ih]

theorem isPrefixOf_append_of (a : List Char) :
    ∀ (p r : List Char), a.isPrefixOf p = true → a.isPrefixOf (p ++ r) = true := by
  induction a with
  | nil => intro p r _; simp [List.isPrefixOf]
  | cons c cs ih =>
    intro p r h
    cases p with
    | nil => simp [List.isPrefixOf] at h
    | cons d ds =>
      simp only [List.isPrefixOf, List.cons_append, Bool.and_eq_true] at h ⊢
      exact ⟨h.1, ih ds r h.2⟩

theorem startsWith_append_self (p r : String) : startsWith (p ++ r) p = true := by
  simp [startsWith, String.data_append, isPrefixOf_append_self]

theorem startsWith_append_of {s a : String} (h : startsWith s a = true) (r : String) :
    startsWith (s ++ r) a = true := by
  simp only [startsWith, String.data_append] at h ⊢
  exact isPrefixOf_append_of _ _ _ h

theorem slice1_slash (x : String) : slice1 ("/" ++ x) = x := by
  simp [slice1, String.data_append]

/-! ## Lemmas on proxyRequest -/

theorem proxyRequest_of_urlError {rt : Runtime} {σ : Heap} {target : String} {req : Request}
    {m : String} (h : rt.urlHost target = .error m) :
    proxyRequest rt σ target req = ⟨proxyError m, [], (σ.alloc (σ.read req.headers)).1⟩ := by
  simp only [proxyRequest, h]

theorem proxyRequest_of_requestError {rt : Runtime} {σ : Heap} {target : String}
    {req : Request} {host m : String} (h : rt.urlHost target = .ok host)
    (hb : rt.requestError (outbound σ target host req) = some m) :
    proxyRequest rt σ target req = ⟨proxyError m, [], rewritten σ target host req⟩ := by
  simp only [outbound, rewritten, Heap.alloc] at hb
  simp only [proxyRequest, h, rewritten, Heap.alloc, hb]

theorem proxyRequest_of_upstreamError {rt : Runtime} {σ : Heap} {target : String}
    {req : Request} {host m : String} (h : rt.urlHost target = .ok host)
    (hb : rt.requestError (outbound σ target host req) = none)
    (hu : rt.upstream (outbound σ target host req) = .error m) :
    proxyRequest rt σ target req =
      ⟨proxyError m, [outbound σ target host req], rewritten σ target host req⟩ := by
  simp only [outbound, rewritten, Heap.alloc] at hb hu
  simp only [proxyRequest, h, outbound, rewritten, Heap.alloc, hb, hu]

theorem proxyRequest_of_responseError {rt : Runtime} {σ : Heap} {target : String}
    {req : Request} {host : String} {up : Response} (h : rt.urlHost target = .ok host)
    (hb : rt.requestError (outbound σ target host req) = none)
    (hu : rt.upstream (outbound σ target host req) = .ok up)
    (hr : responseRejects up.status up.body = true) :
    proxyRequest rt σ target req =
      ⟨proxyError (rt.responseMessage up.status up.body), [outbound σ target host req],
        rewritten σ target host req⟩ := by
  simp only [outbound, rewritten, Heap.alloc] at hb hu
  simp only [proxyRequest, h, outbound, rewritten, Heap.alloc, hb, hu, hr, if_true]

theorem proxyRequest_of_ok {rt : Runtime} {σ : Heap} {target : String}
    {req : Request} {host : String} {up : Response} (h : rt.urlHost target = .ok host)
    (hb : rt.requestError (outbound σ target host req) = none)
    (hu : rt.upstream (outbound σ target host req) = .ok up)
    (hr : responseRejects up.status up.body = false) :
    proxyRequest rt σ target req =
      ⟨relayed up, [outbound σ target host req], rewritten σ target host req⟩ := by
  simp only [outbound, rewritten, Heap.alloc] at hb hu
  simp only [proxyRequest, h, outbound, rewritten, Heap.alloc, hb, hu, hr, relayed,
    Bool.false_eq_true, if_false]

/-- Once the target URL has parsed and the outbound request is built, exactly
one call is issued, whatever the network answers. -/
theorem proxyRequest_calls_of_built {rt : Runtime} {σ : Heap} {target : String}
    {req : Request} {host : String} (h : rt.urlHost target = .ok host)
    (hb : rt.requestError (outbound σ target host req) = none) :
    (proxyRequest rt σ target req).calls = [outbound σ target host req] := by
  cases hu : rt.upstream (outbound σ target host req) with
  | error m => rw [proxyRequest_of_upstreamError h hb hu]
  | ok up =>
    cases hr : responseRejects up.status up.body with
    | true => rw [proxyRequest_of_responseError h hb hu hr]
    | false => rw [proxyRequest_of_ok h hb hu hr]

/-- The five ways `proxyRequest` can end. -/
theorem proxyRequest_cases (rt : Runtime) (σ : Heap) (target : String) (req : Request) :
    (∃ m, rt.urlHost target = .error m ∧
      proxyRequest rt σ target req = ⟨proxyError m, [], (σ.alloc (σ.read req.headers)).1⟩) ∨
    (∃ host m, rt.urlHost target = .ok host ∧
      rt.requestError (outbound σ target host req) = some m ∧
      proxyRequest rt σ target req = ⟨proxyError m, [], rewritten σ target host req⟩) ∨
    (∃ host m, rt.urlHost target = .ok host ∧
      rt.requestError (outbound σ target host req) = none ∧
      rt.upstream (outbound σ target host req) = .error m ∧
      proxyRequest rt σ target req =
        ⟨proxyError m, [outbound σ target host req], rewritten σ target host req⟩) ∨
    (∃ host up, rt.urlHost target = .ok host ∧
      rt.requestError (outbound σ target host req) = none ∧
      rt.upstream (outbound σ target host req) = .ok up ∧
      responseRejects up.status up.body = true ∧
      proxyRequest rt σ target req =
        ⟨proxyError (rt.responseMessage up.status up.body), [outbound σ target host req],
          rewritten σ target host req⟩) ∨
    (∃ host up, rt.urlHost target = .ok host ∧
      rt.requestError (outbound σ target host req) = none ∧
      rt.upstream (outbound σ target host req) = .ok up ∧
      responseRejects up.status up.body = false ∧
      proxyRequest rt σ target req =
        ⟨relayed up, [outbound σ target host req], rewritten σ target host req⟩) := by
  cases h : rt.urlHost target with
  | error m => exact Or.inl ⟨m, rfl, proxyRequest_of_urlError h⟩
  | ok host =>
    cases hb : rt.requestError (outbound σ target host req) with
    | some m => exact Or.inr (Or.inl ⟨host, m, rfl, hb, proxyRequest_of_requestError h hb⟩)
    | none =>
      cases hu : rt.upstream (outbound σ target host req) with
      | error m =>
        exact Or.inr (Or.inr (Or.inl ⟨host, m, rfl, hb, hu, proxyRequest_of_upstreamError h hb hu⟩))
      | ok up =>
        cases hr : responseRejects up.status up.body with
        | true =>
          exact Or.inr (Or.inr (Or.inr (Or.inl
            ⟨host, up, rfl, hb, hu, hr, proxyRequest_of_responseError h hb hu hr⟩)))
        | false =>
          exact Or.inr (Or.inr (Or.inr (Or.inr
            ⟨host, up, rfl, hb, hu, hr, proxyRequest_of_ok h hb hu hr⟩)))

/-- Every call `proxyRequest` issues is the request built at source line 98. -/
theorem proxyRequest_calls (rt : Runtime) (σ : Heap) (target : String) (req : Request)
    (c : OutRequest) (hc : c ∈ (proxyRequest rt σ target req).calls) :
    ∃ host, rt.urlHost target = .ok host ∧ c = outbound σ target host req := by
  rcases proxyRequest_cases rt σ target req with
    ⟨m, _, e⟩ | ⟨host, m, _, _, e⟩ | ⟨host, m, hh, _, _, e⟩ | ⟨host, up, hh, _, _, _, e⟩ |
    ⟨host, up, hh, _, _, _, e⟩
  · rw [e] at hc; simp at hc
  · rw [e] at hc; simp at hc
  · rw [e] at hc; exact ⟨host, hh, by simpa using hc⟩
  · rw [e] at hc; exact ⟨host, hh, by simpa using hc⟩
  · rw [e] at hc; exact ⟨host, hh, by simpa using hc⟩

/-- The object behind `newHeaders` once source lines 75-85 have run. -/
theorem rewritten_read_new (σ : Heap) (target host : String) (req : Request) :
    (rewritten σ target host req).read σ.objs.length =
      if includes target "github" then
        (((σ.read req.headers).set "Host" host).set "Referer" "https://github.com/").set
          "User-Agent" USER_AGENT
      else (σ.read req.headers).set "Host" host := by
  have hn : σ.objs.length < (σ.alloc (σ.read req.headers)).1.objs.length := by
    simp [Heap.alloc]
  have h0 := Heap.read_alloc_new σ (σ.read req.headers)
  have e2 : (σ.alloc (σ.read req.headers)).2 = σ.objs.length := rfl
  rw [e2] at h0
  have h1 := Heap.read_setHeader_same (σ.alloc (σ.read req.headers)).1 hn "Host" host
  rw [h0] at h1
  unfold rewritten disguise
  simp only [e2]
  split
  · have hn1 : σ.objs.length <
        ((σ.alloc (σ.read req.headers)).1.setHeader σ.objs.length "Host" host).objs.length := by
      rw [Heap.length_setHeader]; exact hn
    have h2 := Heap.read_setHeader_same _ hn1 "Referer" "https://github.com/"
    rw [h1] at h2
    have hn2 : σ.objs.length <
        (((σ.alloc (σ.read req.headers)).1.setHeader σ.objs.length "Host" host).setHeader
          σ.objs.length "Referer" "https://github.com/").objs.length := by
      rw [Heap.length_setHeader]; exact hn1
    have h3 := Heap.read_setHeader_same _ hn2 "User-Agent" USER_AGENT
    rw [h2] at h3
    exact h3
  · exact h1

/-- Objects that existed before the call are not touched by source lines 75-85. -/
theorem rewritten_read_old (σ : Heap) (target host : String) (req : Request) {r : Nat}
    (hr : r < σ.objs.length) : (rewritten σ target host req).read r = σ.read r := by
  have hne : σ.objs.length ≠ r := Nat.ne_of_gt hr
  have e2 : (σ.alloc (σ.read req.headers)).2 = σ.objs.length := rfl
  unfold rewritten disguise
  simp only [e2]
  split
  · rw [Heap.read_setHeader_other _ hne, Heap.read_setHeader_other _ hne,
      Heap.read_setHeader_other _ hne, Heap.read_alloc_old _ _ hr]
  · rw [Heap.read_setHeader_other _ hne, Heap.read_alloc_old _ _ hr]

/-- Once the target URL has parsed, the final heap is the one source lines
75-85 leave, however the rest of `proxyRequest` goes. -/
theorem proxyRequest_heap {rt : Runtime} {σ : Heap} {target : String} {req : Request}
    {host : String} (hh : rt.urlHost target = .ok host) :
    (proxyRequest rt σ target req).heap = rewritten σ target host req := by
  rcases proxyRequest_cases rt σ target req with
    ⟨m, h, _⟩ | ⟨host', m, h, _, e⟩ | ⟨host', m, h, _, _, e⟩ | ⟨host', up, h, _, _, _, e⟩ |
    ⟨host', up, h, _, _, _, e⟩
  · rw [hh] at h; cases h
  · rw [hh] at h; cases h; rw [e]
  · rw [hh] at h; cases h; rw [e]
  · rw [hh] at h; cases h; rw [e]
  · rw [hh] at h; cases h; rw [e]

/-! ## Lemmas on routing -/

theorem lookup_none_of_not_key {path : String} (h : path ∉ ROUTES.map Prod.fst) :
    ROUTES.lookup path = none := by
  have hne : ¬ path = "/install" := by simpa [ROUTES] using h
  have hb : (path == "/install") = false := by simpa using hne
  simp only [ROUTES, List.lookup, hb]

/-- Past the preflight check and the named-route lookup, `fetch` is the
embedded-URL decision of source lines 50-64. -/
theorem fetch_of_not_route (rt : Runtime) (σ : Heap) (req : Request)
    (hm : req.method ≠ "OPTIONS") (hr : ROUTES.lookup req.url.pathname = none) :
    fetch rt σ req =
      if startsWith (slice1 req.url.pathname ++ req.url.search) "http://" ||
          startsWith (slice1 req.url.pathname ++ req.url.search) "https://" then
        if ALLOWED_PREFIXES.any (fun p => startsWith (slice1 req.url.pathname ++ req.url.search) p)
        then proxyRequest rt σ (slice1 req.url.pathname ++ req.url.search) req
        else ⟨textResponse
          "Forbidden: Access to this repository is not allowed via this proxy." 403, [], σ⟩
      else ⟨redirectResponse REPO_HOME_URL 302, [], σ⟩ := by
  unfold fetch
  simp only [if_neg hm, hr, truthy, Bool.false_eq_true, if_false]

/-- On a named route `fetch` is `proxyRequest` at the cache-busted raw URL. -/
theorem fetch_of_route (rt : Runtime) (σ : Heap) (req : Request)
    (hm : req.method ≠ "OPTIONS") {script : String}
    (hk : (req.url.pathname, script) ∈ ROUTES) :
    fetch rt σ req =
      proxyRequest rt σ (RAW_BASE_URL ++ "/" ++ script ++ "?t=" ++ toString rt.now) req := by
  have hk2 : req.url.pathname = "/install" ∧ script = "scripts/install.sh" := by
    simpa [ROUTES] using hk
  unfold fetch
  simp [if_neg hm, hk2.1, hk2.2, ROUTES, List.lookup, truthy]

theorem allowed_shape : ∀ p ∈ ALLOWED_PREFIXES,
    startsWith p "https://" = true ∧ startsWith ("/" ++ p) "/h" = true := by
  decide

/-- A path that embeds an allow-listed URL is not a named route, and its
embedded URL passes both tests of source lines 52-54. -/
theorem embedded_allowed {p : String} (hp : p ∈ ALLOWED_PREFIXES) (rest search : String) :
    ROUTES.lookup ("/" ++ p ++ rest) = none ∧
    slice1 ("/" ++ p ++ rest) ++ search = p ++ rest ++ search ∧
    startsWith (p ++ rest ++ search) "https://" = true ∧
    ALLOWED_PREFIXES.any (fun a => startsWith (p ++ rest ++ search) a) = true := by
  have hs := allowed_shape p hp
  refine ⟨?_, ?_, ?_, ?_⟩
  · apply lookup_none_of_not_key
    intro hmem
    have he : "/" ++ p ++ rest = "/install" := by simpa [ROUTES] using hmem
    have h1 : startsWith ("/" ++ p ++ rest) "/h" = true := startsWith_append_of hs.2 rest
    rw [he] at h1
    exact absurd h1 (by decide)
  · rw [String.append_assoc "/" p rest, slice1_slash]
  · exact startsWith_append_of (startsWith_append_of hs.1 rest) search
  · rw [List.any_eq_true]
    exact ⟨p, hp, startsWith_append_of (startsWith_append_self p rest) search⟩

/-- A request whose path embeds an allow-listed URL is handed to
`proxyRequest` with that URL followed by the query string. -/
theorem fetch_of_allowed (rt : Runtime) (σ : Heap) (req : Request) {p rest : String}
    (hp : p ∈ ALLOWED_PREFIXES) (hm : req.method ≠ "OPTIONS")
    (hpath : req.url.pathname = "/" ++ p ++ rest) :
    fetch rt σ req = proxyRequest rt σ (p ++ rest ++ req.url.search) req := by
  obtain ⟨h1, h2, h3, h4⟩ := embedded_allowed hp rest req.url.search
  rw [← hpath] at h1 h2
  rw [fetch_of_not_route rt σ req hm h1, h2, h3, h4]
  simp

/-! ## The gateway: direct replies (C1, C4, C5) and the named route (C6) -/

/-- C1: a non-OPTIONS request whose path is not a named-route key and whose
path-without-leading-slash plus query begins with `http://` or `https://` but
with no allow-listed prefix is answered with status 403 and the fixed
Forbidden body, and no outbound call is made. -/
theorem fetch_forbidden (rt : Runtime) (σ : Heap) (req : Request)
    (hm : req.method ≠ "OPTIONS")
    (hr : req.url.pathname ∉ ROUTES.map Prod.fst)
    (hs : startsWith (slice1 req.url.pathname ++ req.url.search) "http://" = true ∨
          startsWith (slice1 req.url.pathname ++ req.url.search) "https://" = true)
    (ha : ∀ p ∈ ALLOWED_PREFIXES,
          startsWith (slice1 req.url.pathname ++ req.url.search) p = false) :
    (fetch rt σ req).response.status = 403 ∧
    (fetch rt σ req).response.body =
      some "Forbidden: Access to this repository is not allowed via this proxy." ∧
    (fetch rt σ req).calls = [] := by
  have hshape : (startsWith (slice1 req.url.pathname ++ req.url.search) "http://" ||
      startsWith (slice1 req.url.pathname ++ req.url.search) "https://") = true := by
    rcases hs with h | h <;> simp [h]
  have hany : ALLOWED_PREFIXES.any
      (fun p => startsWith (slice1 req.url.pathname ++ req.url.search) p) = false := by
    rw [List.any_eq_false]
    intro p hp
    simp [ha p hp]
  rw [fetch_of_not_route rt σ req hm (lookup_none_of_not_key hr), if_pos hshape, hany]
  simp [textResponse]

/-- C1 at `GET /https://example.com/x?y=1` with an upstream that would answer. -/
theorem fetch_forbidden_witness :
    (fetch (stubRuntime 1700 (.ok (sampleUpstream 200))) sampleHeap
        (sampleRequest "GET" "/https://example.com/x" "?y=1")).response.status = 403 ∧
    (fetch (stubRuntime 1700 (.ok (sampleUpstream 200))) sampleHeap
        (sampleRequest "GET" "/https://example.com/x" "?y=1")).response.body =
      some "Forbidden: Access to this repository is not allowed via this proxy." ∧
    (fetch (stubRuntime 1700 (.ok (sampleUpstream 200))) sampleHeap
        (sampleRequest "GET" "/https://example.com/x" "?y=1")).calls = [] :=
  fetch_forbidden _ _ _ (by decide) (by decide) (by decide) (by decide)

/-- C4: a non-OPTIONS request whose path is not a named-route key and whose
path-without-leading-slash plus query begins with neither `http://` nor
`https://` is answered with status 302 and `Location` equal to
`https://github.com/0Sycamores/nixos-config`, and no outbound call is made. -/
theorem fetch_fallback (rt : Runtime) (σ : Heap) (req : Request)
    (hm : req.method ≠ "OPTIONS")
    (hr : req.url.pathname ∉ ROUTES.map Prod.fst)
    (hs : startsWith (slice1 req.url.pathname ++ req.url.search) "http://" = false)
    (hs' : startsWith (slice1 req.url.pathname ++ req.url.search) "https://" = false) :
    (fetch rt σ req).response.status = 302 ∧
    (fetch rt σ req).response.headers.get "Location" =
      some "https://github.com/0Sycamores/nixos-config" ∧
    (fetch rt σ req).calls = [] := by
  rw [fetch_of_not_route rt σ req hm (lookup_none_of_not_key hr), hs, hs']
  have hloc : (redirectResponse REPO_HOME_URL 302).headers.get "Location" =
      some "https://github.com/0Sycamores/nixos-config" := by decide
  exact ⟨rfl, hloc, rfl⟩

/-- C4 at the root path `/` and at the malformed shape `/htt://x`. -/
theorem fetch_fallback_witness :
    ((fetch (stubRuntime 1700 (.ok (sampleUpstream 200))) sampleHeap
        (sampleRequest "GET" "/" "")).response.status = 302 ∧
     (fetch (stubRuntime 1700 (.ok (sampleUpstream 200))) sampleHeap
        (sampleRequest "GET" "/" "")).response.headers.get "Location" =
      some "https://github.com/0Sycamores/nixos-config" ∧
     (fetch (stubRuntime 1700 (.ok (sampleUpstream 200))) sampleHeap
        (sampleRequest "GET" "/" "")).calls = []) ∧
    ((fetch (stubRuntime 1700 (.ok (sampleUpstream 200))) sampleHeap
        (sampleRequest "POST" "/htt://x" "?q")).response.status = 302 ∧
     (fetch (stubRuntime 1700 (.ok (sampleUpstream 200))) sampleHeap
        (sampleRequest "POST" "/htt://x" "?q")).response.headers.get "Location" =
      some "https://github.com/0Sycamores/nixos-config" ∧
     (fetch (stubRuntime 1700 (.ok (sampleUpstream 200))) sampleHeap
        (sampleRequest "POST" "/htt://x" "?q")).calls = []) :=
  ⟨fetch_fallback _ _ _ (by decide) (by decide) (by decide) (by decide),
   fetch_fallback _ _ _ (by decide) (by decide) (by decide) (by decide)⟩

/-- C5: every request with method `OPTIONS`, whatever its path, query, headers
and body, gets a 2xx response with an empty body and the three CORS headers,
and no outbound call is made. -/
theorem fetch_preflight (rt : Runtime) (σ : Heap) (req : Request)
    (hm : req.method = "OPTIONS") :
    (200 ≤ (fetch rt σ req).response.status ∧ (fetch rt σ req).response.status < 300) ∧
    (fetch rt σ req).response.body = none ∧
    (fetch rt σ req).response.headers.get "Access-Control-Allow-Origin" = some "*" ∧
    (fetch rt σ req).response.headers.get "Access-Control-Allow-Methods" =
      some "GET, POST, HEAD, OPTIONS" ∧
    (fetch rt σ req).response.headers.get "Access-Control-Allow-Headers" = some "*" ∧
    (fetch rt σ req).calls = [] := by
  have h : fetch rt σ req = ⟨preflightResponse, [], σ⟩ := by
    unfold fetch
    rw [if_pos hm]
  rw [h]
  have hp : (200 ≤ preflightResponse.status ∧ preflightResponse.status < 300) ∧
      preflightResponse.body = none ∧
      preflightResponse.headers.get "Access-Control-Allow-Origin" = some "*" ∧
      preflightResponse.headers.get "Access-Control-Allow-Methods" =
        some "GET, POST, HEAD, OPTIONS" ∧
      preflightResponse.headers.get "Access-Control-Allow-Headers" = some "*" := by decide
  exact ⟨hp.1, hp.2.1, hp.2.2.1, hp.2.2.2.1, hp.2.2.2.2, rfl⟩

/-- C5 at `OPTIONS /install` and at `OPTIONS` on a path embedding a URL that is
not allow-listed. -/
theorem fetch_preflight_witness :
    (fetch (stubRuntime 1700 (.ok (sampleUpstream 200))) sampleHeap
        (sampleRequest "OPTIONS" "/install" "")).calls = [] ∧
    (fetch (stubRuntime 1700 (.ok (sampleUpstream 200))) sampleHeap
        (sampleRequest "OPTIONS" "/https://example.com/x" "")).response.body = none ∧
    (fetch (stubRuntime 1700 (.ok (sampleUpstream 200))) sampleHeap
        (sampleRequest "OPTIONS" "/https://example.com/x" "")).response.status = 200 :=
  ⟨(fetch_preflight _ _ (sampleRequest "OPTIONS" "/install" "") (by decide)).2.2.2.2.2,
   (fetch_preflight _ _ (sampleRequest "OPTIONS" "/https://example.com/x" "") (by decide)).2.1,
   by decide⟩

/-- C6: for a non-OPTIONS request whose path is a key of `ROUTES`, handled at
timestamp `rt.now`, the target URL handed to `proxyRequest` is
`RAW_BASE_URL/ROUTES[path]?t=<now>`, that is
`https://raw.githubusercontent.com/0Sycamores/nixos-config/main/scripts/install.sh?t=<now>`,
whatever the inbound query string is. -/
theorem fetch_named_route (rt : Runtime) (σ : Heap) (req : Request) (script : String)
    (hm : req.method ≠ "OPTIONS")
    (hk : (req.url.pathname, script) ∈ ROUTES) :
    RAW_BASE_URL ++ "/" ++ script ++ "?t=" ++ toString rt.now =
      "https://raw.githubusercontent.com/0Sycamores/nixos-config/main/scripts/install.sh?t="
        ++ toString rt.now ∧
    ∀ q : String,
      fetch rt σ { req with url := { req.url with search := q } } =
        proxyRequest rt σ (RAW_BASE_URL ++ "/" ++ script ++ "?t=" ++ toString rt.now)
          { req with url := { req.url with search := q } } := by
  have hk2 : req.url.pathname = "/install" ∧ script = "scripts/install.sh" := by
    simpa [ROUTES] using hk
  refine ⟨?_, fun q => fetch_of_route rt σ { req with url := { req.url with search := q } } hm hk⟩
  rw [hk2.2]
  have hc : RAW_BASE_URL ++ "/" ++ "scripts/install.sh" ++ "?t=" =
      "https://raw.githubusercontent.com/0Sycamores/nixos-config/main/scripts/install.sh?t=" := by
    decide
  rw [hc]

/-- C6 at `GET /install?x=1` handled at timestamp 1700: one call, to the
install script with `?t=1700`, the inbound query dropped. -/
theorem fetch_named_route_witness :
    (fetch (stubRuntime 1700 (.ok (sampleUpstream 200))) sampleHeap
        (sampleRequest "GET" "/install" "?x=1")).calls.map OutRequest.url =
      ["https://raw.githubusercontent.com/0Sycamores/nixos-config/main/scripts/install.sh?t=1700"] :=
  ((fetch_named_route (stubRuntime 1700 (.ok (sampleUpstream 200))) sampleHeap
      (sampleRequest "GET" "/install" "") "scripts/install.sh" (by decide) (by decide)).2
      "?x=1").symm ▸ (by decide)

/-! ## The forwarder (C7, C8, C9, C10) -/

/-- The `Response` constructor accepts a status in 200..599 with a body that is
null whenever the status is 204, 205 or 304. -/
theorem responseRejects_false {status : Nat} {body : Option String}
    (hS : 200 ≤ status ∧ status ≤ 599) (hB : body = none ∨ status ∉ [204, 205, 304]) :
    responseRejects status body = false := by
  have h1 : ¬ status < 200 := by omega
  have h2 : ¬ 599 < status := by omega
  rcases hB with hB | hB
  · simp [responseRejects, h1, h2, hB]
  · have h3 : status ≠ 101 := by omega
    have h4 : status ≠ 103 := by omega
    simp only [List.mem_cons, List.mem_singleton, List.not_mem_nil, or_false, not_or] at hB
    simp [responseRejects, h1, h2, h3, h4, hB.1, hB.2.1, hB.2.2]

/-- C7 fails as stated: the outbound call succeeds with upstream status 999,
but the `Response` constructor at source line 112 rejects that status inside
the `try`, so `proxyRequest` returns status 500 and a `Proxy Error` body
instead of status 999 and the upstream body. -/
theorem out_of_range_status_not_relayed :
    (sampleUpstream 999).status = 999 ∧
    (proxyRequest (stubRuntime 1700 (.ok (sampleUpstream 999))) sampleHeap
        "https://github.com/0Sycamores/nixos-config/x"
        (sampleRequest "GET" "/" "")).calls.length = 1 ∧
    (proxyRequest (stubRuntime 1700 (.ok (sampleUpstream 999))) sampleHeap
        "https://github.com/0Sycamores/nixos-config/x"
        (sampleRequest "GET" "/" "")).response.status = 500 ∧
    (proxyRequest (stubRuntime 1700 (.ok (sampleUpstream 999))) sampleHeap
        "https://github.com/0Sycamores/nixos-config/x"
        (sampleRequest "GET" "/" "")).response.body ≠ (sampleUpstream 999).body := by
  decide

/-- C7, amended: when the outbound call succeeds with an upstream status S in
200..599, body B (null if S is 204, 205 or 304) and headers H, `proxyRequest`
returns status S, body B and a header set that reads as H except for the five
names it sets (Expires, Pragma, Cache-Control, Access-Control-Allow-Methods,
Access-Control-Allow-Origin), which carry the fixed values whatever H held for
them. -/
theorem proxyRequest_relay (rt : Runtime) (σ : Heap) (target : String) (req : Request)
    (host : String) (up : Response)
    (hh : rt.urlHost target = .ok host)
    (hb : rt.requestError (outbound σ target host req) = none)
    (hu : rt.upstream (outbound σ target host req) = .ok up)
    (hS : 200 ≤ up.status ∧ up.status ≤ 599)
    (hB : up.body = none ∨ up.status ∉ [204, 205, 304]) :
    (proxyRequest rt σ target req).response.status = up.status ∧
    (proxyRequest rt σ target req).response.body = up.body ∧
    ∀ name : String, (proxyRequest rt σ target req).response.headers.get name =
      if sameName name "Expires" then some "0"
      else if sameName name "Pragma" then some "no-cache"
      else if sameName name "Cache-Control" then
        some "no-store, no-cache, must-revalidate, proxy-revalidate"
      else if sameName name "Access-Control-Allow-Methods" then
        some "GET, POST, HEAD, OPTIONS"
      else if sameName name "Access-Control-Allow-Origin" then some "*"
      else up.headers.get name := by
  rw [proxyRequest_of_ok hh hb hu (responseRejects_false hS hB)]
  refine ⟨rfl, rfl, fun name => ?_⟩
  simp only [relayed, newResponseHeaders, Headers.get_set]

/-- C7, amended, at an upstream answering 404 with caching headers of its own:
status and body come back unchanged, `Cache-Control` reads the fixed value and
`Content-Type` reads as upstream sent it. -/
theorem proxyRequest_relay_witness :
    (proxyRequest (stubRuntime 1700 (.ok (sampleUpstream 404))) sampleHeap
        "https://github.com/0Sycamores/nixos-config/x"
        (sampleRequest "GET" "/" "")).response.status = 404 ∧
    (proxyRequest (stubRuntime 1700 (.ok (sampleUpstream 404))) sampleHeap
        "https://github.com/0Sycamores/nixos-config/x"
        (sampleRequest "GET" "/" "")).response.body = some "#!/bin/sh" ∧
    (proxyRequest (stubRuntime 1700 (.ok (sampleUpstream 404))) sampleHeap
        "https://github.com/0Sycamores/nixos-config/x"
        (sampleRequest "GET" "/" "")).response.headers.get "Cache-Control" =
      some "no-store, no-cache, must-revalidate, proxy-revalidate" ∧
    (proxyRequest (stubRuntime 1700 (.ok (sampleUpstream 404))) sampleHeap
        "https://github.com/0Sycamores/nixos-config/x"
        (sampleRequest "GET" "/" "")).response.headers.get "Content-Type" =
      some "text/x-sh" :=
  have h := proxyRequest_relay (stubRuntime 1700 (.ok (sampleUpstream 404))) sampleHeap
    "https://github.com/0Sycamores/nixos-config/x" (sampleRequest "GET" "/" "")
    "github.com" (sampleUpstream 404) rfl (by decide) rfl (by decide) (by decide)
  ⟨h.1, h.2.1, (h.2.2 "Cache-Control").trans (by decide),
    (h.2.2 "Content-Type").trans (by decide)⟩

/-- C8: if parsing the target URL, building the outbound request, or the
outbound call raises an error with message `m`, `proxyRequest` returns status
500 with body `Proxy Error: m`. -/
theorem proxyRequest_error (rt : Runtime) (σ : Heap) (target : String) (req : Request)
    (m : String)
    (h : rt.urlHost target = .error m ∨
      (∃ host, rt.urlHost target = .ok host ∧
        rt.requestError (outbound σ target host req) = some m) ∨
      (∃ host, rt.urlHost target = .ok host ∧
        rt.requestError (outbound σ target host req) = none ∧
        rt.upstream (outbound σ target host req) = .error m)) :
    (proxyRequest rt σ target req).response.status = 500 ∧
    (proxyRequest rt σ target req).response.body = some ("Proxy Error: " ++ m) := by
  rcases h with h | ⟨host, hh, hb⟩ | ⟨host, hh, hb, hu⟩
  · rw [proxyRequest_of_urlError h]; exact ⟨rfl, rfl⟩
  · rw [proxyRequest_of_requestError hh hb]; exact ⟨rfl, rfl⟩
  · rw [proxyRequest_of_upstreamError hh hb hu]; exact ⟨rfl, rfl⟩

/-- C8 at a network that rejects with `boom`, and at a target that does not
parse. -/
theorem proxyRequest_error_witness :
    ((proxyRequest (stubRuntime 1700 (.error "boom")) sampleHeap
        "https://github.com/0Sycamores/nixos-config/x"
        (sampleRequest "GET" "/" "")).response.status = 500 ∧
     (proxyRequest (stubRuntime 1700 (.error "boom")) sampleHeap
        "https://github.com/0Sycamores/nixos-config/x"
        (sampleRequest "GET" "/" "")).response.body = some ("Proxy Error: " ++ "boom")) ∧
    ((proxyRequest (stubRuntime 1700 (.error "boom")) sampleHeap "nonsense"
        (sampleRequest "GET" "/" "")).response.status = 500 ∧
     (proxyRequest (stubRuntime 1700 (.error "boom")) sampleHeap "nonsense"
        (sampleRequest "GET" "/" "")).response.body =
      some ("Proxy Error: " ++ "Invalid URL")) :=
  ⟨proxyRequest_error _ _ _ _ "boom"
      (Or.inr (Or.inr ⟨"github.com", rfl, by decide, rfl⟩)),
   proxyRequest_error _ _ _ _ "Invalid URL" (Or.inl rfl)⟩

/-- On a normalised method, the case-insensitive test of source line 94 is the
exact one. -/
theorem upper_of_normalized {m k : String}
    (hk : k ∈ ["DELETE", "GET", "HEAD", "OPTIONS", "POST", "PUT"])
    (hwf : normalizeMethod m = m) (h : toUpperCase m = k) : m = k := by
  have hc : ["DELETE", "GET", "HEAD", "OPTIONS", "POST", "PUT"].contains (toUpperCase m)
      = true := by
    rw [h]; simpa using hk
  unfold normalizeMethod at hwf
  rw [if_pos hc] at hwf
  rw [← hwf]; exact h

/-- C9: every outbound request `proxyRequest` issues for an inbound request
(whose method, as that of every `Request`, is normalised) uses the inbound
method; it carries no body when the inbound method is `GET` or `HEAD`, whatever
body the inbound request has, and exactly the inbound body for every other
method. -/
theorem proxyRequest_method_body (rt : Runtime) (σ : Heap) (target : String) (req : Request)
    (hwf : normalizeMethod req.method = req.method)
    (c : OutRequest) (hc : c ∈ (proxyRequest rt σ target req).calls) :
    c.method = req.method ∧
    (req.method = "GET" ∨ req.method = "HEAD" → c.body = none) ∧
    (req.method ≠ "GET" ∧ req.method ≠ "HEAD" → c.body = req.body) := by
  obtain ⟨host, _, rfl⟩ := proxyRequest_calls rt σ target req c hc
  refine ⟨hwf, fun h => ?_, fun h => ?_⟩
  · have hu : ["GET", "HEAD"].contains (toUpperCase req.method) = true := by
      rcases h with h | h <;> rw [h] <;> decide
    simp only [outbound, newRequest]
    rw [if_pos hu]
  · have hu : ¬ ["GET", "HEAD"].contains (toUpperCase req.method) = true := by
      intro hcon
      have hcon' : toUpperCase req.method = "GET" ∨ toUpperCase req.method = "HEAD" := by
        simpa using hcon
      rcases hcon' with e | e
      · exact h.1 (upper_of_normalized (by decide) hwf e)
      · exact h.2 (upper_of_normalized (by decide) hwf e)
    simp only [outbound, newRequest]
    rw [if_neg hu]

/-- C9 at a `POST` with a body, whose body is forwarded, and at a `GET` with a
body, whose body is dropped. -/
theorem proxyRequest_method_body_witness :
    ((outbound sampleHeap "https://github.com/0Sycamores/nixos-config/x" "github.com"
        (sampleRequest "POST" "/" "")).method = "POST" ∧
     (outbound sampleHeap "https://github.com/0Sycamores/nixos-config/x" "github.com"
        (sampleRequest "POST" "/" "")).body = some "payload") ∧
    (sampleRequest "GET" "/" "").body = some "payload" ∧
    (outbound sampleHeap "https://github.com/0Sycamores/nixos-config/x" "github.com"
        (sampleRequest "GET" "/" "")).body = none :=
  have h := proxyRequest_method_body (stubRuntime 1700 (.ok (sampleUpstream 200))) sampleHeap
    "https://github.com/0Sycamores/nixos-config/x" (sampleRequest "POST" "/" "") (by decide)
    (outbound sampleHeap "https://github.com/0Sycamores/nixos-config/x" "github.com"
      (sampleRequest "POST" "/" "")) (by decide)
  have g := proxyRequest_method_body (stubRuntime 1700 (.ok (sampleUpstream 200))) sampleHeap
    "https://github.com/0Sycamores/nixos-config/x" (sampleRequest "GET" "/" "") (by decide)
    (outbound sampleHeap "https://github.com/0Sycamores/nixos-config/x" "github.com"
      (sampleRequest "GET" "/" "")) (by decide)
  ⟨⟨h.1, h.2.2 (by decide)⟩, rfl, g.2.1 (Or.inl rfl)⟩

/-- C10 fails as stated: the host of `https://example.com/github` is
`example.com`, which does not contain `github`, yet the inbound `Referer` is
not carried over: the outbound request has the GitHub one. -/
theorem referer_overwritten_off_github :
    hostOf "https://example.com/github" = .ok "example.com" ∧
    includes "example.com" "github" = false ∧
    (sampleHeap.read (sampleRequest "GET" "/" "").headers).get "Referer" =
      some "https://a.example/" ∧
    (proxyRequest (stubRuntime 1700 (.ok (sampleUpstream 200))) sampleHeap
        "https://example.com/github"
        (sampleRequest "GET" "/" "")).calls.map (fun c => c.headers.get "Referer") =
      [some "https://github.com/"] :=
  ⟨rfl, by decide, by decide, by decide⟩

/-- C10, amended: for a parseable target URL the header object `proxyRequest`
builds (the fresh object number `σ.objs.length`) reads as the inbound header
set except that `Host` is the host of the target URL and, if the target URL
string contains `github` anywhere, `Referer` is `https://github.com/` and
`User-Agent` is the fixed browser string; every outbound call carries exactly
that header set, and the inbound header object is left as it was. -/
theorem proxyRequest_headers (rt : Runtime) (σ : Heap) (target : String) (req : Request)
    (host : String)
    (hv : req.headers < σ.objs.length)
    (hh : rt.urlHost target = .ok host) :
    (∀ name : String,
      ((proxyRequest rt σ target req).heap.read σ.objs.length).get name =
        if (includes target "github" && sameName name "User-Agent") = true then
          some USER_AGENT
        else if (includes target "github" && sameName name "Referer") = true then
          some "https://github.com/"
        else if sameName name "Host" then some host
        else (σ.read req.headers).get name) ∧
    (∀ c ∈ (proxyRequest rt σ target req).calls,
      c.headers = (proxyRequest rt σ target req).heap.read σ.objs.length) ∧
    (proxyRequest rt σ target req).heap.read req.headers = σ.read req.headers := by
  rw [proxyRequest_heap hh]
  refine ⟨fun name => ?_, fun c hc => ?_, rewritten_read_old σ target host req hv⟩
  · rw [rewritten_read_new]
    cases includes target "github" with
    | true => simp [Headers.get_set]
    | false => simp [Headers.get_set]
  · obtain ⟨host', hh', rfl⟩ := proxyRequest_calls rt σ target req c hc
    rw [hh] at hh'
    cases hh'
    rfl

/-- C10, amended, at `https://raw.githubusercontent.com/...`: `Host` and
`Referer` are rewritten, `Accept` is carried over, and the inbound header
object still holds the inbound `Referer`. -/
theorem proxyRequest_headers_witness :
    ((proxyRequest (stubRuntime 1700 (.ok (sampleUpstream 200))) sampleHeap
        "https://raw.githubusercontent.com/0Sycamores/nixos-config/main/flake.nix"
        (sampleRequest "GET" "/" "")).heap.read sampleHeap.objs.length).get "host" =
      some "raw.githubusercontent.com" ∧
    ((proxyRequest (stubRuntime 1700 (.ok (sampleUpstream 200))) sampleHeap
        "https://raw.githubusercontent.com/0Sycamores/nixos-config/main/flake.nix"
        (sampleRequest "GET" "/" "")).heap.read sampleHeap.objs.length).get "Accept" =
      some "*/*" ∧
    (proxyRequest (stubRuntime 1700 (.ok (sampleUpstream 200))) sampleHeap
        "https://raw.githubusercontent.com/0Sycamores/nixos-config/main/flake.nix"
        (sampleRequest "GET" "/" "")).heap.read (sampleRequest "GET" "/" "").headers =
      sampleHeap.read (sampleRequest "GET" "/" "").headers :=
  have h := proxyRequest_headers (stubRuntime 1700 (.ok (sampleUpstream 200))) sampleHeap
    "https://raw.githubusercontent.com/0Sycamores/nixos-config/main/flake.nix"
    (sampleRequest "GET" "/" "") "raw.githubusercontent.com" (by decide) rfl
  ⟨(h.1 "host").trans (by decide), (h.1 "Accept").trans (by decide), h.2.2⟩

/-! ## The passthrough branch (C2, C3) -/

/-- C2 fails as stated: an `OPTIONS` request on an allow-listed path issues no
outbound call, and a `GET` on it returns status 403 when the upstream answers
403. -/
theorem passthrough_without_call_or_with_403 :
    (fetch (stubRuntime 1700 (.ok (sampleUpstream 200))) sampleHeap
        (sampleRequest "OPTIONS" "/https://github.com/0Sycamores/nixos-config/a" "")).calls
      = [] ∧
    (fetch (stubRuntime 1700 (.ok (sampleUpstream 403))) sampleHeap
        (sampleRequest "GET" "/https://github.com/0Sycamores/nixos-config/a" "")).response.status
      = 403 := by
  decide

/-- C2, amended: for a non-OPTIONS request whose path is `/` followed by an
allow-listed entry `p` and any `rest`, `fetch` hands `p ++ rest ++ query` to
`proxyRequest`; when that URL parses and the outbound request can be built,
exactly one outbound call is issued, to that URL; and the returned status is
403 only when the upstream itself answered an issued call with 403. -/
theorem fetch_passthrough (rt : Runtime) (σ : Heap) (req : Request) (p rest : String)
    (hp : p ∈ ALLOWED_PREFIXES) (hm : req.method ≠ "OPTIONS")
    (hpath : req.url.pathname = "/" ++ p ++ rest) :
    fetch rt σ req = proxyRequest rt σ (p ++ rest ++ req.url.search) req ∧
    (∀ host, rt.urlHost (p ++ rest ++ req.url.search) = .ok host →
      rt.requestError (outbound σ (p ++ rest ++ req.url.search) host req) = none →
      (fetch rt σ req).calls = [outbound σ (p ++ rest ++ req.url.search) host req] ∧
      (outbound σ (p ++ rest ++ req.url.search) host req).url =
        p ++ rest ++ req.url.search) ∧
    ((fetch rt σ req).response.status = 403 →
      ∃ c up, c ∈ (fetch rt σ req).calls ∧ rt.upstream c = .ok up ∧ up.status = 403) := by
  have hf := fetch_of_allowed rt σ req hp hm hpath
  rw [hf]
  refine ⟨rfl, fun host hh hb => ⟨proxyRequest_calls_of_built hh hb, rfl⟩, fun h403 => ?_⟩
  · rcases proxyRequest_cases rt σ (p ++ rest ++ req.url.search) req with
      ⟨m, _, e⟩ | ⟨host, m, _, _, e⟩ | ⟨host, m, _, _, _, e⟩ | ⟨host, up, _, _, _, _, e⟩ |
      ⟨host, up, _, _, hu, _, e⟩
    · rw [e] at h403; simp [proxyError, textResponse] at h403
    · rw [e] at h403; simp [proxyError, textResponse] at h403
    · rw [e] at h403; simp [proxyError, textResponse] at h403
    · rw [e] at h403; simp [proxyError, textResponse] at h403
    · rw [e] at h403 ⊢
      exact ⟨_, up, List.mem_singleton.mpr rfl, hu, h403⟩

/-- C2, amended, at `POST /https://github.com/0Sycamores/nixos-config/a?ref=main`
with a healthy upstream: one call, to the embedded URL with the query string. -/
theorem fetch_passthrough_witness :
    (fetch (stubRuntime 1700 (.ok (sampleUpstream 200))) sampleHeap
        (sampleRequest "POST" "/https://github.com/0Sycamores/nixos-config/a"
          "?ref=main")).calls.map OutRequest.url =
      ["https://github.com/0Sycamores/nixos-config/a?ref=main"] :=
  have h := fetch_passthrough (stubRuntime 1700 (.ok (sampleUpstream 200))) sampleHeap
    (sampleRequest "POST" "/https://github.com/0Sycamores/nixos-config/a" "?ref=main")
    "https://github.com/0Sycamores/nixos-config" "/a" (by decide) (by decide) (by decide)
  (congrArg (List.map OutRequest.url) ((h.2.1 "github.com" rfl rfl).1)).trans (by decide)

/-- C3, the code at the failing input: a `GET` whose path embeds
`https://github.com/0Sycamores/nixos-config-other/secret` passes the
allow-list check and is forwarded, although the repository segment of that URL
is `nixos-config-other`, not `nixos-config`. -/
theorem fetch_forwards_sibling_repository :
    (fetch (stubRuntime 1700 (.ok (sampleUpstream 200))) sampleHeap
        (sampleRequest "GET" "/https://github.com/0Sycamores/nixos-config-other/secret"
          "")).calls.map OutRequest.url =
      ["https://github.com/0Sycamores/nixos-config-other/secret"] ∧
    (fetch (stubRuntime 1700 (.ok (sampleUpstream 200))) sampleHeap
        (sampleRequest "GET" "/https://github.com/0Sycamores/nixos-config-other/secret"
          "")).response.status = 200 ∧
    (segments "https://github.com/0Sycamores/nixos-config-other/secret")[4]? =
      some "nixos-config-other" ∧
    "nixos-config-other" ≠ GITHUB_REPO := by
  decide

/-! ## Lemmas on the routing decision -/

/-- The handler `fetch` is its routing decision followed by the action of the branch. -/
theorem fetch_eq_dispatch (rt : Runtime) (σ : Heap) (req : Request) :
    fetch rt σ req =
      match branch req with
      | .preflight => ⟨preflightResponse, [], σ⟩
      | .namedRoute => proxyRequest rt σ (forwardTarget rt.now req) req
      | .passthrough => proxyRequest rt σ (forwardTarget rt.now req) req
      | .forbidden =>
        ⟨textResponse "Forbidden: Access to this repository is not allowed via this proxy." 403,
          [], σ⟩
      | .redirect => ⟨redirectResponse REPO_HOME_URL 302, [], σ⟩ := by
  unfold fetch branch forwardTarget
  by_cases hm : req.method = "OPTIONS"
  · simp only [if_pos hm]
  · simp only [if_neg hm]
    by_cases ht : truthy (ROUTES.lookup req.url.pathname) = true
    · simp only [if_pos ht]
    · simp only [if_neg ht]
      split_ifs <;> rfl

theorem truthy_lookup_iff (path : String) :
    truthy (ROUTES.lookup path) = true ↔ path = "/install" := by
  by_cases h : path = "/install"
  · subst h; simp [ROUTES, List.lookup, truthy]
  · have hb : (path == "/install") = false := by simpa using h
    simp [ROUTES, List.lookup, hb, truthy, h]

theorem isPrefixOf_append_query (P : List Char) (hP : '?' ∉ P) :
    ∀ (a q : List Char), (q = [] ∨ ∃ t, q = '?' :: t) →
      P.isPrefixOf (a ++ q) = P.isPrefixOf a := by
  induction P with
  | nil => intro a q _; simp [List.isPrefixOf]
  | cons c cs ih =>
    intro a q hq
    have hc : c ≠ '?' := fun e => hP (by simp [e])
    have hcs : '?' ∉ cs := fun e => hP (List.mem_cons_of_mem _ e)
    cases a with
    | nil =>
      rcases hq with rfl | ⟨t, rfl⟩
      · simp
      · simp [List.isPrefixOf, hc]
    | cons x xs =>
      have e := ih hcs xs q hq
      simp only [List.cons_append, List.isPrefixOf]
      show (c == x && cs.isPrefixOf (xs ++ q)) = (c == x && cs.isPrefixOf xs)
      rw [e]

/-- A query string, being empty or starting with a question mark, cannot
complete a pattern that has no question mark in it. -/
theorem startsWith_append_query (a q P : String) (hq : q = "" ∨ startsWith q "?" = true)
    (hP : '?' ∉ P.data) : startsWith (a ++ q) P = startsWith a P := by
  simp only [startsWith, String.data_append]
  apply isPrefixOf_append_query P.data hP
  rcases hq with rfl | h
  · exact Or.inl rfl
  · right
    simp only [startsWith] at h
    cases hd : q.data with
    | nil => rw [hd] at h; simp [List.isPrefixOf] at h
    | cons c cs =>
      rw [hd] at h
      have hc : c = '?' := by
        have : ('?' == c) = true := by
          simpa [List.isPrefixOf] using h
        exact (beq_iff_eq.mp this).symm
      exact ⟨cs, by rw [hc]⟩

theorem patterns_without_query :
    ∀ P ∈ "http://" :: "https://" :: ALLOWED_PREFIXES, '?' ∉ P.data := by
  decide

/-- The branch taken is the one taken with the query string removed. -/
theorem branch_drop_query (m path : String) (h : Nat) (b : Option String) (q : String)
    (hq : q = "" ∨ startsWith q "?" = true) :
    branch ⟨m, ⟨path, q⟩, h, b⟩ = branch ⟨m, ⟨path, ""⟩, h, b⟩ := by
  have e : ∀ P ∈ "http://" :: "https://" :: ALLOWED_PREFIXES,
      startsWith (slice1 path ++ q) P = startsWith (slice1 path ++ "") P := by
    intro P hP
    rw [startsWith_append_query _ q P hq (patterns_without_query P hP),
      startsWith_append_query _ "" P (Or.inl rfl) (patterns_without_query P hP)]
  have e1 := e "http://" (by simp)
  have e2 := e "https://" (by simp)
  have e3 : ALLOWED_PREFIXES.any (fun p => startsWith (slice1 path ++ q) p) =
      ALLOWED_PREFIXES.any (fun p => startsWith (slice1 path ++ "") p) := by
    have e4 := e ("https://github.com/" ++ GITHUB_USER ++ "/" ++ GITHUB_REPO)
      (by simp [ALLOWED_PREFIXES])
    have e5 := e ("https://raw.githubusercontent.com/" ++ GITHUB_USER ++ "/" ++ GITHUB_REPO)
      (by simp [ALLOWED_PREFIXES])
    simp only [ALLOWED_PREFIXES, List.any_cons, List.any_nil, e4, e5]
  simp only [branch, e1, e2, e3]

/-- The probe runtime records the target of every delegation to `proxyRequest`. -/
theorem probe_calls (n : Nat) (σ : Heap) (target : String) (req : Request) :
    (proxyRequest (probeRuntime n) σ target req).calls.map OutRequest.url = [target] := by
  have h := @proxyRequest_of_upstreamError (probeRuntime n) σ target req "upstream.invalid"
    "unreachable" rfl rfl rfl
  rw [h]
  rfl

/-- With the probe runtime, the targets of the calls of a request that is past
the preflight check and is no named route do not depend on the clock. -/
theorem fetch_probe_urls (n : Nat) (σ : Heap) (req : Request)
    (hm : req.method ≠ "OPTIONS") (hr : ROUTES.lookup req.url.pathname = none) :
    (fetch (probeRuntime n) σ req).calls.map OutRequest.url =
      if (startsWith (slice1 req.url.pathname ++ req.url.search) "http://" ||
          startsWith (slice1 req.url.pathname ++ req.url.search) "https://") = true then
        if ALLOWED_PREFIXES.any
            (fun p => startsWith (slice1 req.url.pathname ++ req.url.search) p) = true
        then [slice1 req.url.pathname ++ req.url.search]
        else []
      else [] := by
  rw [fetch_of_not_route (probeRuntime n) σ req hm hr]
  split_ifs
  · exact probe_calls n σ _ req
  · rfl
  · rfl

/-! ## Named routes (C11, C12) -/

/-- C11: named-route matching is exact-string.  For a non-OPTIONS request
whose path begins with `/`, the named-route branch is taken, that is, the
request is handed to `proxyRequest` at the install-script target
`RAW_BASE_URL/scripts/install.sh?t=<now>` whatever the runtime and the clock,
if and only if the path is exactly `/install`; with the path `/install/`,
`/Install` or `/INSTALL` the request is no named route and gets the 302
fallback, with no outbound call. -/
theorem named_route_exact (req : Request)
    (hm : req.method ≠ "OPTIONS") (hs : startsWith req.url.pathname "/" = true) :
    (branch req = .namedRoute ↔ req.url.pathname = "/install") ∧
    ((∀ (rt : Runtime) (σ : Heap), fetch rt σ req =
        proxyRequest rt σ
          ("https://raw.githubusercontent.com/0Sycamores/nixos-config/main/scripts/install.sh?t="
            ++ toString rt.now) req) ↔ req.url.pathname = "/install") ∧
    (req.url.pathname ∈ ["/install/", "/Install", "/INSTALL"] →
      branch req = .redirect ∧
      ∀ (rt : Runtime) (σ : Heap),
        (fetch rt σ req).response.status = 302 ∧
        (fetch rt σ req).response.headers.get "Location" =
          some "https://github.com/0Sycamores/nixos-config" ∧
        (fetch rt σ req).calls = []) := by
  have _ := hs
  have hc : RAW_BASE_URL ++ "/" ++ "scripts/install.sh" ++ "?t=" =
      "https://raw.githubusercontent.com/0Sycamores/nixos-config/main/scripts/install.sh?t=" := by
    decide
  refine ⟨?_, ?_, ?_⟩
  · unfold branch
    rw [if_neg hm]
    constructor
    · intro h
      by_cases ht : truthy (ROUTES.lookup req.url.pathname) = true
      · exact (truthy_lookup_iff _).mp ht
      · rw [if_neg ht] at h
        simp only [] at h
        split_ifs at h
    · intro h
      rw [if_pos ((truthy_lookup_iff _).mpr h)]
  · constructor
    · intro h
      by_contra hne
      have hr : ROUTES.lookup req.url.pathname = none :=
        lookup_none_of_not_key (by simpa [ROUTES] using hne)
      have h0 := congrArg (fun o => o.calls.map OutRequest.url) (h (probeRuntime 0) ⟨[]⟩)
      have h1 := congrArg (fun o => o.calls.map OutRequest.url) (h (probeRuntime 1) ⟨[]⟩)
      simp only [] at h0 h1
      rw [fetch_probe_urls 0 ⟨[]⟩ req hm hr, probe_calls] at h0
      rw [fetch_probe_urls 1 ⟨[]⟩ req hm hr, probe_calls, h0] at h1
      exact absurd h1 (by decide)
    · intro h rt σ
      have hk : (req.url.pathname, "scripts/install.sh") ∈ ROUTES := by
        rw [h]; simp [ROUTES]
      rw [fetch_of_route rt σ req hm hk, hc]
  · intro hmem
    have hr : ROUTES.lookup req.url.pathname = none := by
      apply lookup_none_of_not_key
      simp only [List.mem_cons, List.mem_singleton, List.not_mem_nil, or_false] at hmem
      rcases hmem with e | e | e <;> rw [e] <;> decide
    have hshape : ∀ P ∈ ["http://", "https://"],
        startsWith (slice1 req.url.pathname ++ req.url.search) P = false := by
      simp only [List.mem_cons, List.mem_singleton, List.not_mem_nil, or_false] at hmem
      intro P hP
      have hP' : P = "http://" ∨ P = "https://" := by simpa using hP
      have key : ∀ (x : String), (x = "install/" ∨ x = "Install" ∨ x = "INSTALL") →
          startsWith (x ++ req.url.search) P = false := by
        intro x hx
        simp only [startsWith, String.data_append]
        rcases hx with rfl | rfl | rfl <;> rcases hP' with rfl | rfl <;>
          simp [List.isPrefixOf]
      rcases hmem with e | e | e
      · rw [e]; exact key _ (Or.inl (by decide))
      · rw [e]; exact key _ (Or.inr (Or.inl (by decide)))
      · rw [e]; exact key _ (Or.inr (Or.inr (by decide)))
    have h1 := hshape "http://" (by simp)
    have h2 := hshape "https://" (by simp)
    have hloc : (redirectResponse REPO_HOME_URL 302).headers.get "Location" =
        some "https://github.com/0Sycamores/nixos-config" := by decide
    refine ⟨?_, fun rt σ => ?_⟩
    · unfold branch
      rw [if_neg hm, hr]
      simp [truthy, h1, h2]
    · rw [fetch_of_not_route rt σ req hm hr, h1, h2]
      exact ⟨rfl, hloc, rfl⟩

/-- C11 at `GET /install/`: not a named route, 302 and no call. -/
theorem named_route_exact_witness :
    branch (sampleRequest "GET" "/install/" "") = .redirect ∧
    (fetch (stubRuntime 1700 (.ok (sampleUpstream 200))) sampleHeap
        (sampleRequest "GET" "/install/" "")).response.status = 302 ∧
    (fetch (stubRuntime 1700 (.ok (sampleUpstream 200))) sampleHeap
        (sampleRequest "GET" "/install/" "")).calls = [] :=
  have h := (named_route_exact (sampleRequest "GET" "/install/" "") (by decide)
    (by decide)).2.2 (by decide)
  ⟨h.1, (h.2 _ _).1, (h.2 _ _).2.2⟩

/-- C12: for every entry `(path, script)` of `ROUTES` and every timestamp `t`,
the named-route target `RAW_BASE_URL/script?t=<t>` begins with an entry of
`ALLOWED_PREFIXES`, so it passes the allow-list test of source line 54. -/
theorem named_targets_allowed (path script : String) (t : Nat)
    (h : (path, script) ∈ ROUTES) :
    (∃ p ∈ ALLOWED_PREFIXES,
      startsWith (RAW_BASE_URL ++ "/" ++ script ++ "?t=" ++ toString t) p = true) ∧
    ALLOWED_PREFIXES.any
      (fun p => startsWith (RAW_BASE_URL ++ "/" ++ script ++ "?t=" ++ toString t) p) = true := by
  have _ := h
  have hb : startsWith RAW_BASE_URL
      ("https://raw.githubusercontent.com/" ++ GITHUB_USER ++ "/" ++ GITHUB_REPO) = true := by
    decide
  have hm : "https://raw.githubusercontent.com/" ++ GITHUB_USER ++ "/" ++ GITHUB_REPO ∈
      ALLOWED_PREFIXES := by simp [ALLOWED_PREFIXES]
  have hs := startsWith_append_of (startsWith_append_of (startsWith_append_of
    (startsWith_append_of hb "/") script) "?t=") (toString t)
  exact ⟨⟨_, hm, hs⟩, List.any_eq_true.mpr ⟨_, hm, hs⟩⟩

/-- C12 at the one entry of `ROUTES` and the timestamp 1700. -/
theorem named_targets_allowed_witness :
    ALLOWED_PREFIXES.any
      (fun p => startsWith
        (RAW_BASE_URL ++ "/" ++ "scripts/install.sh" ++ "?t=" ++ toString 1700) p) = true :=
  (named_targets_allowed "/install" "scripts/install.sh" 1700 (by decide)).2

/-! ## Independence of the query string (C16) -/

/-- C16: for every method and path and every two query strings, each empty or
beginning with a question mark, `fetch` takes the same branch (preflight,
named route, passthrough, 403 or 302); the query string changes neither the
`http://` / `https://` shape test nor any allow-list test. -/
theorem branch_query_independent (m path : String) (h : Nat) (b : Option String)
    (q1 q2 : String)
    (h1 : q1 = "" ∨ startsWith q1 "?" = true) (h2 : q2 = "" ∨ startsWith q2 "?" = true) :
    branch ⟨m, ⟨path, q1⟩, h, b⟩ = branch ⟨m, ⟨path, q2⟩, h, b⟩ ∧
    (∀ P ∈ "http://" :: "https://" :: ALLOWED_PREFIXES,
      startsWith (slice1 path ++ q1) P = startsWith (slice1 path) P) := by
  refine ⟨?_, fun P hP => ?_⟩
  · rw [branch_drop_query m path h b q1 h1, branch_drop_query m path h b q2 h2]
  · exact startsWith_append_query _ q1 P h1 (patterns_without_query P hP)

/-- C16 at a path one character short of an allow-list entry: the query `?g`
does not complete it. -/
theorem branch_query_independent_witness :
    branch (sampleRequest "GET" "/https://github.com/0Sycamores/nixos-confi" "?g") =
      branch (sampleRequest "GET" "/https://github.com/0Sycamores/nixos-confi" "") :=
  (branch_query_independent "GET" "/https://github.com/0Sycamores/nixos-confi" 0
    (some "payload") "?g" "" (by decide) (by decide)).1

/-- The named-route branch is taken past the preflight check, on a truthy
`ROUTES` entry. -/
theorem branch_namedRoute {req : Request} (hb : branch req = .namedRoute) :
    req.method ≠ "OPTIONS" ∧ truthy (ROUTES.lookup req.url.pathname) = true := by
  unfold branch at hb
  by_cases hm : req.method = "OPTIONS"
  · rw [if_pos hm] at hb; cases hb
  · refine ⟨hm, ?_⟩
    by_contra hn
    rw [if_neg hm, if_neg hn] at hb
    simp only [] at hb
    split_ifs at hb

/-! ## Decimal rendering of the timestamp -/

theorem digitChar_value (k : Nat) (hk : k < 10) : (Nat.digitChar k).toNat - 48 = k := by
  interval_cases k <;> rfl

theorem foldl_toDigitsCore (fuel : Nat) :
    ∀ (n : Nat) (ds : List Char), n < fuel →
      (Nat.toDigitsCore 10 fuel n ds).foldl (fun acc c => acc * 10 + (c.toNat - 48)) 0 =
        ds.foldl (fun acc c => acc * 10 + (c.toNat - 48)) n := by
  induction fuel with
  | zero => intro n ds h; exact absurd h (Nat.not_lt_zero n)
  | succ fuel ih =>
    intro n ds h
    have hd := digitChar_value (n % 10) (Nat.mod_lt n (by decide))
    simp only [Nat.toDigitsCore]
    split_ifs with h0
    · simp only [List.foldl_cons, Nat.zero_mul, Nat.zero_add, hd]
      have : n % 10 = n := by
        have := Nat.div_add_mod n 10
        omega
      rw [this]
    · have hlt : n / 10 < fuel := by
        have := Nat.div_add_mod n 10
        omega
      rw [ih (n / 10) _ hlt]
      simp only [List.foldl_cons, hd]
      have : n / 10 * 10 + n % 10 = n := by
        have := Nat.div_add_mod n 10
        omega
      rw [this]

/-- Reading back the decimal rendering of a number gives the number. -/
theorem decimalValue_toString (n : Nat) : decimalValue (toString n).data = n := by
  show decimalValue (Nat.toDigits 10 n) = n
  unfold decimalValue Nat.toDigits
  rw [foldl_toDigitsCore (n + 1) n [] (Nat.lt_succ_self n)]
  rfl

theorem toString_injective {a b : Nat} (h : toString a = toString b) : a = b := by
  have h2 := congrArg (fun s : String => decimalValue s.data) h
  simpa [decimalValue_toString] using h2

theorem append_left_cancel {a x y : String} (h : a ++ x = a ++ y) : x = y := by
  have h2 := congrArg String.data h
  simp only [String.data_append] at h2
  exact String.ext (List.append_cancel_left h2)

/-! ## Cache busting (C14) -/

/-- C14: for a request that is a named route, the target URL handed to
`proxyRequest` is an injective function of the timestamp: handled at two
different timestamps, the same request gets two different target URLs. -/
theorem named_target_injective (req : Request) (hb : branch req = .namedRoute) :
    (∀ (rt : Runtime) (σ : Heap),
      fetch rt σ req = proxyRequest rt σ (forwardTarget rt.now req) req) ∧
    Function.Injective (fun t : Nat => forwardTarget t req) ∧
    (∀ t1 t2 : Nat, t1 ≠ t2 → forwardTarget t1 req ≠ forwardTarget t2 req) := by
  have ht : truthy (ROUTES.lookup req.url.pathname) = true :=
    (branch_namedRoute hb).2
  have hinj : Function.Injective (fun t : Nat => forwardTarget t req) := by
    intro a b hab
    simp only [forwardTarget, if_pos ht] at hab
    exact toString_injective (append_left_cancel hab)
  refine ⟨fun rt σ => ?_, hinj, fun t1 t2 hne e => hne (hinj e)⟩
  rw [fetch_eq_dispatch, hb]

/-- C14 at `GET /install` and the timestamps 1700 and 1701. -/
theorem named_target_injective_witness :
    forwardTarget 1700 (sampleRequest "GET" "/install" "") ≠
      forwardTarget 1701 (sampleRequest "GET" "/install" "") :=
  (named_target_injective (sampleRequest "GET" "/install" "") (by decide)).2.2 1700 1701
    (by decide)

/-! ## The disguise test (C17) -/

/-- The headers of the request built at source line 98, name by name. -/
theorem outbound_headers_get (σ : Heap) (target host : String) (req : Request)
    (name : String) :
    (outbound σ target host req).headers.get name =
      if (includes target "github" && sameName name "User-Agent") = true then
        some USER_AGENT
      else if (includes target "github" && sameName name "Referer") = true then
        some "https://github.com/"
      else if sameName name "Host" then some host
      else (σ.read req.headers).get name := by
  show ((rewritten σ target host req).read σ.objs.length).get name = _
  rw [rewritten_read_new]
  cases includes target "github" with
  | true => simp [Headers.get_set]
  | false => simp [Headers.get_set]

/-- C17: in every outbound request `proxyRequest` issues, `Referer` and
`User-Agent` are overwritten exactly when the target URL string contains
`github` anywhere: if it does (be it in the host, the path or the query) they
are `https://github.com/` and the fixed browser string; if it does not, they
read as in the inbound header set. -/
theorem disguise_iff_github (rt : Runtime) (σ : Heap) (target : String) (req : Request)
    (c : OutRequest) (hc : c ∈ (proxyRequest rt σ target req).calls) :
    (includes target "github" = true →
      c.headers.get "Referer" = some "https://github.com/" ∧
      c.headers.get "User-Agent" = some USER_AGENT) ∧
    (includes target "github" = false →
      c.headers.get "Referer" = (σ.read req.headers).get "Referer" ∧
      c.headers.get "User-Agent" = (σ.read req.headers).get "User-Agent") := by
  obtain ⟨host, _, rfl⟩ := proxyRequest_calls rt σ target req c hc
  have h1 : sameName "Referer" "User-Agent" = false := by decide
  have h2 : sameName "Referer" "Host" = false := by decide
  have h3 : sameName "User-Agent" "Host" = false := by decide
  have h4 : sameName "Referer" "Referer" = true := by decide
  have h5 : sameName "User-Agent" "User-Agent" = true := by decide
  constructor
  · intro hi
    rw [outbound_headers_get, outbound_headers_get]
    simp [hi, h1, h4, h5]
  · intro hi
    rw [outbound_headers_get, outbound_headers_get]
    simp [hi, h2, h3]

/-- C17 at `https://example.com/github`, whose host has no `github` but whose
path has: `Referer` is overwritten; and at `https://example.com/x`, with no
`github` at all: the inbound `Referer` is forwarded. -/
theorem disguise_iff_github_witness :
    hostOf "https://example.com/github" = .ok "example.com" ∧
    (outbound sampleHeap "https://example.com/github" "example.com"
        (sampleRequest "GET" "/" "")).headers.get "Referer" = some "https://github.com/" ∧
    (outbound sampleHeap "https://example.com/x" "example.com"
        (sampleRequest "GET" "/" "")).headers.get "Referer" = some "https://a.example/" :=
  ⟨rfl,
   ((disguise_iff_github (stubRuntime 1700 (.ok (sampleUpstream 200))) sampleHeap
      "https://example.com/github" (sampleRequest "GET" "/" "")
      (outbound sampleHeap "https://example.com/github" "example.com"
        (sampleRequest "GET" "/" "")) (by decide)).1 (by decide)).1,
   (((disguise_iff_github (stubRuntime 1700 (.ok (sampleUpstream 200))) sampleHeap
      "https://example.com/x" (sampleRequest "GET" "/" "")
      (outbound sampleHeap "https://example.com/x" "example.com"
        (sampleRequest "GET" "/" "")) (by decide)).2 (by decide)).1).trans (by decide)⟩

/-! ## Lemmas on hosts -/

theorem isPrefixOf_split (p : List Char) :
    ∀ l : List Char, p.isPrefixOf l = true → ∃ t, l = p ++ t := by
  induction p with
  | nil => intro l _; exact ⟨l, rfl⟩
  | cons c cs ih =>
    intro l h
    cases l with
    | nil => simp [List.isPrefixOf] at h
    | cons d ds =>
      simp only [List.isPrefixOf, Bool.and_eq_true, beq_iff_eq] at h
      obtain ⟨t, ht⟩ := ih ds h.2
      exact ⟨t, by rw [h.1, ht]; rfl⟩

theorem startsWith_trans {s a b : String} (h1 : startsWith s a = true)
    (h2 : startsWith a b = true) : startsWith s b = true := by
  simp only [startsWith] at h1 h2 ⊢
  obtain ⟨t, ht⟩ := isPrefixOf_split _ _ h1
  rw [ht]
  exact isPrefixOf_append_of _ _ _ h2

theorem takeWhile_host (h t : List Char)
    (hd : ∀ c ∈ h, (c != '/' && c != '?' && c != '#') = true) :
    (h ++ '/' :: t).takeWhile (fun c => c != '/' && c != '?' && c != '#') = h := by
  induction h with
  | nil => simp [List.takeWhile]
  | cons c cs ih =>
    have hc := hd c (by simp)
    have e := ih (fun x hx => hd x (List.mem_cons_of_mem _ hx))
    rw [List.cons_append, List.takeWhile_cons, if_pos hc, e]

/-- The stand-in host parser on `https://` followed by a host and a slash. -/
theorem hostOf_https (s : String) (h t : List Char)
    (hs : s.data = "https://".data ++ (h ++ '/' :: t)) (hne : h ≠ [])
    (hd : ∀ c ∈ h, (c != '/' && c != '?' && c != '#') = true) :
    hostOf s = .ok ⟨h⟩ := by
  have h1 : startsWith s "https://" = true := by
    simp only [startsWith, hs]; exact isPrefixOf_append_self _ _
  have h2 : s.data.drop 8 = h ++ '/' :: t := by
    rw [hs]; rfl
  unfold hostOf
  simp only [h1, if_true, h2, takeWhile_host h t hd]
  cases h with
  | nil => exact absurd rfl hne
  | cons c cs => rfl

theorem hostOf_github {s : String} (h : startsWith s "https://github.com/" = true) :
    hostOf s = .ok "github.com" := by
  obtain ⟨t, ht⟩ := isPrefixOf_split _ _ h
  exact hostOf_https s "github.com".data t ht (by decide) (by decide)

theorem hostOf_raw {s : String}
    (h : startsWith s "https://raw.githubusercontent.com/" = true) :
    hostOf s = .ok "raw.githubusercontent.com" := by
  obtain ⟨t, ht⟩ := isPrefixOf_split _ _ h
  exact hostOf_https s "raw.githubusercontent.com".data t ht (by decide) (by decide)

theorem allowed_hosts : ∀ p ∈ ALLOWED_PREFIXES,
    startsWith p "https://github.com/" = true ∨
    startsWith p "https://raw.githubusercontent.com/" = true := by
  decide

/-- A string that starts with an allow-list entry is confined. -/
theorem confined_of_allowed {s p : String} (hp : p ∈ ALLOWED_PREFIXES)
    (h : startsWith s p = true) : confined s := by
  rcases allowed_hosts p hp with hg | hr
  · exact Or.inl ⟨startsWith_trans h hg, hostOf_github (startsWith_trans h hg)⟩
  · exact Or.inr ⟨startsWith_trans h hr, hostOf_raw (startsWith_trans h hr)⟩

/-- In both forwarding branches the target handed to `proxyRequest` is confined. -/
theorem confined_forwardTarget (now : Nat) (req : Request)
    (hb : branch req = .namedRoute ∨ branch req = .passthrough) :
    confined (forwardTarget now req) := by
  rcases hb with hb | hb
  · have ht := (branch_namedRoute hb).2
    have hp := (truthy_lookup_iff _).mp ht
    have hbase : startsWith RAW_BASE_URL
        ("https://raw.githubusercontent.com/" ++ GITHUB_USER ++ "/" ++ GITHUB_REPO) = true := by
      decide
    unfold forwardTarget
    rw [if_pos ht]
    exact confined_of_allowed (by simp [ALLOWED_PREFIXES])
      (startsWith_append_of (startsWith_append_of (startsWith_append_of
        (startsWith_append_of hbase "/") _) "?t=") (toString now))
  · unfold branch at hb
    by_cases hm : req.method = "OPTIONS"
    · rw [if_pos hm] at hb; cases hb
    · rw [if_neg hm] at hb
      by_cases ht : truthy (ROUTES.lookup req.url.pathname) = true
      · rw [if_pos ht] at hb; cases hb
      · rw [if_neg ht] at hb
        simp only [] at hb
        unfold forwardTarget
        rw [if_neg ht]
        split_ifs at hb with hshape hany
        obtain ⟨p, hp, hsp⟩ := List.any_eq_true.mp hany
        exact confined_of_allowed hp hsp

/-- Every call issued by `proxyRequest` goes to the target it was given. -/
theorem proxyRequest_calls_url (rt : Runtime) (σ : Heap) (target : String) (req : Request)
    (c : OutRequest) (hc : c ∈ (proxyRequest rt σ target req).calls) : c.url = target := by
  obtain ⟨host, _, rfl⟩ := proxyRequest_calls rt σ target req c hc
  rfl

/-- No call is issued outside the two forwarding branches. -/
theorem fetch_calls_nil (rt : Runtime) (σ : Heap) (req : Request)
    (h1 : branch req ≠ .namedRoute) (h2 : branch req ≠ .passthrough) :
    (fetch rt σ req).calls = [] := by
  rw [fetch_eq_dispatch]
  cases hb : branch req with
  | preflight => rfl
  | namedRoute => exact absurd hb h1
  | passthrough => exact absurd hb h2
  | forbidden => rfl
  | redirect => rfl

/-- In the two forwarding branches `fetch` is `proxyRequest` at the forward target. -/
theorem fetch_of_forward (rt : Runtime) (σ : Heap) (req : Request)
    (hb : branch req = .namedRoute ∨ branch req = .passthrough) :
    fetch rt σ req = proxyRequest rt σ (forwardTarget rt.now req) req := by
  rw [fetch_eq_dispatch]
  rcases hb with hb | hb <;> rw [hb]

/-- An embedded URL that begins with `http://` matches no allow-list entry. -/
theorem http_not_allowed {s : String} (h : startsWith s "http://" = true) :
    ALLOWED_PREFIXES.any (fun p => startsWith s p) = false := by
  rw [List.any_eq_false]
  intro p hp hsp
  have hps : startsWith p "https://" = true := (allowed_shape p hp).1
  have hs : startsWith s "https://" = true := startsWith_trans hsp hps
  simp only [startsWith] at h hs
  obtain ⟨t, ht⟩ := isPrefixOf_split _ _ h
  rw [ht] at hs
  have : ("https://".data.isPrefixOf ("http://".data ++ t)) = false := by
    show (['h', 't', 't', 'p', 's', ':', '/', '/'].isPrefixOf
      ('h' :: 't' :: 't' :: 'p' :: ':' :: '/' :: '/' :: t)) = false
    simp [List.isPrefixOf]
  rw [this] at hs
  exact absurd hs (by decide)

/-! ## Upstream confinement (C15) -/

/-- C15 fails as stated: an `OPTIONS` request whose path embeds a URL beginning
with `http://` is answered with the preflight reply, status 200, not with 403. -/
theorem options_http_not_forbidden :
    startsWith (slice1 (sampleRequest "OPTIONS" "/http://example.com/x" "").url.pathname ++
      (sampleRequest "OPTIONS" "/http://example.com/x" "").url.search) "http://" = true ∧
    (fetch (stubRuntime 1700 (.ok (sampleUpstream 200))) sampleHeap
        (sampleRequest "OPTIONS" "/http://example.com/x" "")).response.status = 200 := by
  decide

/-- C15, amended: in both forwarding branches (named route, passthrough) the
target URL handed to `proxyRequest` has scheme https and host exactly
`github.com` or `raw.githubusercontent.com`, and so has the URL of every
outbound call `fetch` issues; a request whose embedded URL begins with
`http://` is never forwarded and, when its method is not `OPTIONS`, is answered
with 403. -/
theorem upstream_confined (rt : Runtime) (σ : Heap) (req : Request) :
    (branch req = .namedRoute ∨ branch req = .passthrough →
      confined (forwardTarget rt.now req)) ∧
    (∀ c ∈ (fetch rt σ req).calls, confined c.url) ∧
    (startsWith (slice1 req.url.pathname ++ req.url.search) "http://" = true →
      (fetch rt σ req).calls = [] ∧
      (req.method ≠ "OPTIONS" →
        branch req = .forbidden ∧ (fetch rt σ req).response.status = 403)) := by
  refine ⟨confined_forwardTarget rt.now req, fun c hc => ?_, fun hshape => ?_⟩
  · by_cases hb : branch req = .namedRoute ∨ branch req = .passthrough
    · rw [fetch_of_forward rt σ req hb] at hc
      rw [proxyRequest_calls_url rt σ _ req c hc]
      exact confined_forwardTarget rt.now req hb
    · rw [fetch_calls_nil rt σ req (fun e => hb (Or.inl e)) (fun e => hb (Or.inr e))] at hc
      simp at hc
  · have hany := http_not_allowed hshape
    have hroute : ¬ truthy (ROUTES.lookup req.url.pathname) = true := by
      intro ht
      have hp := (truthy_lookup_iff _).mp ht
      rw [hp] at hshape
      simp [startsWith, slice1, String.data_append, List.isPrefixOf] at hshape
    have hforb : req.method ≠ "OPTIONS" → branch req = .forbidden := by
      intro hm
      unfold branch
      rw [if_neg hm, if_neg hroute]
      simp only [hshape, hany, Bool.true_or, if_true, Bool.false_eq_true, if_false]
    constructor
    · by_cases hm : req.method = "OPTIONS"
      · have hb : branch req = .preflight := by unfold branch; rw [if_pos hm]
        exact fetch_calls_nil rt σ req (by rw [hb]; decide) (by rw [hb]; decide)
      · exact fetch_calls_nil rt σ req (by rw [hforb hm]; decide) (by rw [hforb hm]; decide)
    · intro hm
      refine ⟨hforb hm, ?_⟩
      rw [fetch_eq_dispatch, hforb hm]
      rfl

/-- C15, amended, at a passthrough request: its one call goes to host `github.com` over
https. -/
theorem upstream_confined_witness :
    confined "https://github.com/0Sycamores/nixos-config/a?ref=main" :=
  (upstream_confined (stubRuntime 1700 (.ok (sampleUpstream 200))) sampleHeap
    (sampleRequest "GET" "/https://github.com/0Sycamores/nixos-config/a" "?ref=main")).2.1
    (outbound sampleHeap "https://github.com/0Sycamores/nixos-config/a?ref=main" "github.com"
      (sampleRequest "GET" "/https://github.com/0Sycamores/nixos-config/a" "?ref=main"))
    (by decide)

/-! ## Statelessness (C13) -/

/-- The request built at source line 98 depends on the heap only through the
inbound header object. -/
theorem outbound_congr {σ₁ σ₂ : Heap} {req : Request}
    (h : σ₁.read req.headers = σ₂.read req.headers) (target host : String) :
    outbound σ₁ target host req = outbound σ₂ target host req := by
  have e1 := rewritten_read_new σ₁ target host req
  have e2 := rewritten_read_new σ₂ target host req
  rw [h] at e1
  simp only [outbound, newRequest, e1, e2]

/-- The response and the calls of `proxyRequest` depend on the heap only
through the inbound header object. -/
theorem proxyRequest_congr (rt : Runtime) {σ₁ σ₂ : Heap} {req : Request}
    (h : σ₁.read req.headers = σ₂.read req.headers) (target : String) :
    (proxyRequest rt σ₁ target req).response = (proxyRequest rt σ₂ target req).response ∧
    (proxyRequest rt σ₁ target req).calls = (proxyRequest rt σ₂ target req).calls := by
  cases hh : rt.urlHost target with
  | error m =>
    rw [proxyRequest_of_urlError hh, proxyRequest_of_urlError hh]
    exact ⟨rfl, rfl⟩
  | ok host =>
    have e := outbound_congr h target host
    cases hb : rt.requestError (outbound σ₁ target host req) with
    | some m =>
      rw [proxyRequest_of_requestError hh hb, proxyRequest_of_requestError hh (e ▸ hb)]
      exact ⟨rfl, rfl⟩
    | none =>
      cases hu : rt.upstream (outbound σ₁ target host req) with
      | error m =>
        rw [proxyRequest_of_upstreamError hh hb hu,
          proxyRequest_of_upstreamError hh (e ▸ hb) (e ▸ hu)]
        exact ⟨rfl, by rw [e]⟩
      | ok up =>
        cases hr : responseRejects up.status up.body with
        | true =>
          rw [proxyRequest_of_responseError hh hb hu hr,
            proxyRequest_of_responseError hh (e ▸ hb) (e ▸ hu) hr]
          exact ⟨rfl, by rw [e]⟩
        | false =>
          rw [proxyRequest_of_ok hh hb hu hr, proxyRequest_of_ok hh (e ▸ hb) (e ▸ hu) hr]
          exact ⟨rfl, by rw [e]⟩

/-- The handler `proxyRequest` leaves every object that existed before the
call as it was. -/
theorem proxyRequest_frame (rt : Runtime) (σ : Heap) (target : String) (req : Request)
    {r : Nat} (hr : r < σ.objs.length) :
    (proxyRequest rt σ target req).heap.read r = σ.read r := by
  cases hh : rt.urlHost target with
  | error m =>
    rw [proxyRequest_of_urlError hh]
    exact Heap.read_alloc_old σ _ hr
  | ok host =>
    rw [proxyRequest_heap hh]
    exact rewritten_read_old σ target host req hr

/-- The handler `fetch` leaves every object that existed before the call as it was. -/
theorem fetch_frame (rt : Runtime) (σ : Heap) (req : Request)
    {r : Nat} (hr : r < σ.objs.length) :
    (fetch rt σ req).heap.read r = σ.read r := by
  rw [fetch_eq_dispatch]
  cases branch req with
  | preflight => rfl
  | namedRoute => exact proxyRequest_frame rt σ _ req hr
  | passthrough => exact proxyRequest_frame rt σ _ req hr
  | forbidden => rfl
  | redirect => rfl

/-- The response and the calls of `fetch` depend on the heap only through the
inbound header object. -/
theorem fetch_congr (rt : Runtime) {σ₁ σ₂ : Heap} {req : Request}
    (h : σ₁.read req.headers = σ₂.read req.headers) :
    (fetch rt σ₁ req).response = (fetch rt σ₂ req).response ∧
    (fetch rt σ₁ req).calls = (fetch rt σ₂ req).calls := by
  rw [fetch_eq_dispatch rt σ₁, fetch_eq_dispatch rt σ₂]
  cases branch req with
  | preflight => exact ⟨rfl, rfl⟩
  | namedRoute => exact proxyRequest_congr rt h _
  | passthrough => exact proxyRequest_congr rt h _
  | forbidden => exact ⟨rfl, rfl⟩
  | redirect => exact ⟨rfl, rfl⟩

/-- In the passthrough branch the target is the embedded URL, whatever the clock. -/
theorem forwardTarget_passthrough {req : Request} (hb : branch req = .passthrough)
    (now : Nat) : forwardTarget now req = slice1 req.url.pathname ++ req.url.search := by
  have ht : ¬ truthy (ROUTES.lookup req.url.pathname) = true := by
    intro ht
    unfold branch at hb
    by_cases hm : req.method = "OPTIONS"
    · rw [if_pos hm] at hb; cases hb
    · rw [if_neg hm, if_pos ht] at hb; cases hb
  unfold forwardTarget
  rw [if_neg ht]

/-- The calls of `proxyRequest` depend on the runtime only through its URL
parser and its `Request` constructor, and on the heap only through the inbound
header object: neither the clock nor the answers of the network matter. -/
theorem proxyRequest_calls_congr {rt₁ rt₂ : Runtime} {σ₁ σ₂ : Heap} {req : Request}
    (hp : rt₂.urlHost = rt₁.urlHost) (hq : rt₂.requestError = rt₁.requestError)
    (h : σ₂.read req.headers = σ₁.read req.headers) (target : String) :
    (proxyRequest rt₂ σ₂ target req).calls = (proxyRequest rt₁ σ₁ target req).calls := by
  cases hh : rt₁.urlHost target with
  | error m =>
    have hh2 : rt₂.urlHost target = .error m := by rw [hp]; exact hh
    rw [proxyRequest_of_urlError hh, proxyRequest_of_urlError hh2]
  | ok host =>
    have hh2 : rt₂.urlHost target = .ok host := by rw [hp]; exact hh
    have e := outbound_congr h target host
    cases hb : rt₁.requestError (outbound σ₁ target host req) with
    | some m =>
      have hb2 : rt₂.requestError (outbound σ₂ target host req) = some m := by
        rw [hq, e]; exact hb
      rw [proxyRequest_of_requestError hh hb, proxyRequest_of_requestError hh2 hb2]
    | none =>
      have hb2 : rt₂.requestError (outbound σ₂ target host req) = none := by
        rw [hq, e]; exact hb
      rw [proxyRequest_calls_of_built hh hb, proxyRequest_calls_of_built hh2 hb2, e]

/-- C13 fails as stated: `OPTIONS /install` has the path of a named route, yet
`fetch` answers it with the preflight reply and makes no outbound call. -/
theorem named_route_without_call :
    (sampleRequest "OPTIONS" "/install" "").url.pathname ∈ ROUTES.map Prod.fst ∧
    (fetch (stubRuntime 1700 (.ok (sampleUpstream 200))) sampleHeap
        (sampleRequest "OPTIONS" "/install" "")).calls = [] := by
  decide

/-- C13, amended: `fetch` keeps no state and never caches.  It makes exactly
one outbound call when the request takes the named-route or the passthrough
branch (so is no `OPTIONS` preflight) and the target URL parses and the
outbound request can be built, and no outbound call when it takes neither
branch; and two identical requests to the same allow-listed embedded URL, with
the same inbound headers, produce the same outbound requests (same target URL,
method, headers and body), whatever the clock and the answers of the network
at each handling. -/
theorem fetch_stateless (rt : Runtime) (σ : Heap) (req : Request) :
    (branch req = .namedRoute ∨ branch req = .passthrough →
      ∀ host, rt.urlHost (forwardTarget rt.now req) = .ok host →
        rt.requestError (outbound σ (forwardTarget rt.now req) host req) = none →
        (fetch rt σ req).calls = [outbound σ (forwardTarget rt.now req) host req]) ∧
    (branch req ≠ .namedRoute → branch req ≠ .passthrough → (fetch rt σ req).calls = []) ∧
    (branch req = .passthrough →
      ∀ (rt' : Runtime) (σ' : Heap),
        rt'.urlHost = rt.urlHost → rt'.requestError = rt.requestError →
        σ'.read req.headers = σ.read req.headers →
        (fetch rt' σ' req).calls = (fetch rt σ req).calls) := by
  refine ⟨fun hb host hh hq => ?_, fetch_calls_nil rt σ req, fun hb rt' σ' hp hq hσ => ?_⟩
  · rw [fetch_of_forward rt σ req hb]
    exact proxyRequest_calls_of_built hh hq
  · rw [fetch_of_forward rt σ req (Or.inr hb), fetch_of_forward rt' σ' req (Or.inr hb),
      forwardTarget_passthrough hb, forwardTarget_passthrough hb]
    exact proxyRequest_calls_congr hp hq hσ _

/-- C13, amended, at `GET /https://github.com/0Sycamores/nixos-config/a`: one
call at timestamp 1700 with a healthy upstream, and the same call when the
request is repeated at timestamp 1701, on the heap the first handling left,
with the network failing. -/
theorem fetch_stateless_witness :
    (fetch (stubRuntime 1700 (.ok (sampleUpstream 200))) sampleHeap
        (sampleRequest "GET" "/https://github.com/0Sycamores/nixos-config/a" "")).calls.length
      = 1 ∧
    (fetch (stubRuntime 1701 (.error "boom"))
        (fetch (stubRuntime 1700 (.ok (sampleUpstream 200))) sampleHeap
          (sampleRequest "GET" "/https://github.com/0Sycamores/nixos-config/a" "")).heap
        (sampleRequest "GET" "/https://github.com/0Sycamores/nixos-config/a" "")).calls =
      (fetch (stubRuntime 1700 (.ok (sampleUpstream 200))) sampleHeap
        (sampleRequest "GET" "/https://github.com/0Sycamores/nixos-config/a" "")).calls :=
  have h := fetch_stateless (stubRuntime 1700 (.ok (sampleUpstream 200))) sampleHeap
    (sampleRequest "GET" "/https://github.com/0Sycamores/nixos-config/a" "")
  ⟨by rw [h.1 (Or.inr (by decide)) "github.com" rfl rfl]; rfl,
   h.2.2 (by decide) (stubRuntime 1701 (.error "boom")) _ rfl rfl (by decide)⟩

end Proxy
